import Mathlib

/-!
Shallow embedding of the CHIP-8 interpreter in `src/python/chip8.py`.

Conventions used throughout:
* numpy `uint8` cells are modelled as `Nat` with explicit `% 256` where a
  store can wrap; `uint16` cells with `% 65536`.
* Python `int` fields (`I`, `PC`) are `Nat`; `SP`, `DT`, `ST` are `Int`
  (`SP` starts at `-1`; the timers are compared against `0`).
* numpy arrays are modelled as total functions; the in-range indices are
  the ones the comments note.
* Python code that raises (out-of-range numpy indexing, shape-mismatched
  slice assignment, an invalid internal `mode`) is modelled by `Option`:
  `none` is an uncaught exception.
* The two sources of external nondeterminism that instructions read —
  `random.randint(0, 255)` in `RND` and the blocking key poll in
  `LD Vx, K` (mode 4) — are modelled as oracle fields `rand` and
  `pendingKey` carried by the state and read by those instructions.
-/

/-- Machine state: the mutable fields set up in `Chip8.__init__`. -/
structure Chip8 where
  /-- `self.RAM`: 4096 bytes (meaningful on indices `0 ≤ a < 0x1000`). -/
  RAM : Nat → Nat
  /-- `self.V`: 16 8-bit registers (indices `0 ≤ i < 0x10`). -/
  V : Nat → Nat
  /-- `self.stack`: 16 16-bit return addresses. -/
  stack : Nat → Nat
  /-- `self.I`: index register (Python int). -/
  I : Nat
  /-- `self.PC`: program counter (Python int). -/
  PC : Nat
  /-- `self.SP`: stack pointer, starts at `-1`. -/
  SP : Int
  /-- `self.DT`: delay timer (Python int). -/
  DT : Int
  /-- `self.ST`: sound timer (Python int). -/
  ST : Int
  /-- `self.keyboard`: 16 pressed flags (`0`/`1`), indices `0 ≤ k < 0x10`. -/
  keyboard : Nat → Nat
  /-- `self.screen`: 64×32 pixels, `screen x y` with `x < 64`, `y < 32`. -/
  screen : Nat → Nat → Bool
  /-- Oracle: the byte `random.randint(0, 255)` returns to `RND`. -/
  rand : Nat
  /-- Oracle: the first truthy key the blocking poll of `LD Vx, K` yields. -/
  pendingKey : Nat

/-- Pointwise update of a function-modelled array: `f[i] = v`. -/
def upd (f : Nat → Nat) (i v : Nat) : Nat → Nat :=
  fun j => if j = i then v else f j

/-- numpy indexing of a 1-d array of length `len`: indices in `[0, len)`
are used as-is, indices in `[-len, 0)` wrap to `i + len`, anything else
raises `IndexError` (`none`). -/
def npIndex (i : Int) (len : Nat) : Option Nat :=
  if 0 ≤ i ∧ i < (len : Int) then some i.toNat
  else if -(len : Int) ≤ i ∧ i < 0 then some (i + len).toNat
  else none

/-- `digits`: the 80-byte font table (16 glyphs × 5 bytes). -/
def digits : List Nat :=
  [0xF0, 0x90, 0x90, 0x90, 0xF0,
   0x20, 0x60, 0x20, 0x20, 0x70,
   0xF0, 0x10, 0xF0, 0x80, 0xF0,
   0xF0, 0x10, 0xF0, 0x10, 0xF0,
   0x90, 0x90, 0xF0, 0x10, 0x10,
   0xF0, 0x80, 0xF0, 0x10, 0xF0,
   0xF0, 0x80, 0xF0, 0x90, 0xF0,
   0xF0, 0x10, 0x20, 0x40, 0x40,
   0xF0, 0x90, 0xF0, 0x90, 0xF0,
   0xF0, 0x90, 0xF0, 0x10, 0xF0,
   0xF0, 0x90, 0xF0, 0x90, 0x90,
   0xE0, 0x90, 0xE0, 0x90, 0xE0,
   0xF0, 0x80, 0x80, 0x80, 0xF0,
   0xE0, 0x90, 0x90, 0x90, 0xE0,
   0xF0, 0x80, 0xF0, 0x80, 0xF0,
   0xF0, 0x80, 0xF0, 0x80, 0x80]

/-- `digit_loc = 0x0`. -/
def digit_loc : Nat := 0x0

/-- `start = 0x200`. -/
def start : Nat := 0x200

/-- `pc_modifying = ['JP nnn', 'CALL nnn', 'RET']`. -/
def pc_modifying : List String := ["JP nnn", "CALL nnn", "RET"]

namespace Chip8

/-- State after `__init__` (before a ROM is copied at `start`): all arrays
zeroed, `SP = -1`, and the font table written at `digit_loc`. -/
def init : Chip8 where
  RAM := fun a => if a < 80 then digits.getD a 0 else 0
  V := fun _ => 0
  stack := fun _ => 0
  I := 0
  PC := 0
  SP := -1
  DT := 0
  ST := 0
  keyboard := fun _ => 0
  screen := fun _ _ => false
  rand := 0
  pendingKey := 0

/-- `push`: `SP += 1; stack[SP] = v` (uint16 store, numpy indexing). -/
def push (c : Chip8) (v : Nat) : Option Chip8 :=
  (npIndex (c.SP + 1) 16).map fun idx =>
    { c with SP := c.SP + 1, stack := upd c.stack idx (v % 65536) }

/-- `pop`: `res = stack[SP]; SP -= 1; return res` (numpy indexing). -/
def pop (c : Chip8) : Option (Chip8 × Nat) :=
  (npIndex c.SP 16).map fun idx =>
    ({ c with SP := c.SP - 1 }, c.stack idx)

/-- `LD(*args, mode=...)`.  Argument layout mirrors the Python call sites:
mode 0 → `a = x, b = kk`; mode 1 → `a = x, b = y`; mode 2 → `a = nnn`;
modes 3–10 → `a = x` (`b` unused).  Modes 8–10 do numpy slice
assignments and raise (`none`) on a shape mismatch; a size-1 right-hand
side broadcasts. -/
def LD (c : Chip8) (mode a b : Nat) : Option Chip8 :=
  match mode with
  | 0 => some { c with V := upd c.V a (b % 256) }
  | 1 => some { c with V := upd c.V a (c.V b) }
  | 2 => some { c with I := a }
  | 3 => some { c with V := upd c.V a ((c.DT.emod 256).toNat) }
  | 4 => -- blocking key wait; the poll result is the `pendingKey` oracle
    some { c with V := upd c.V a (c.pendingKey % 256) }
  | 5 => some { c with DT := (c.V a : Int) }
  | 6 => some { c with ST := (c.V a : Int) }
  | 7 => some { c with I := digit_loc + 5 * c.V a }
  | 8 => -- RAM[I:I+3] = BCD; the 3-element list needs exactly 3 cells
    if c.I + 3 ≤ 4096 then
      let r1 := upd c.RAM c.I (c.V a / 100)
      let r2 := upd r1 (c.I + 1) (c.V a % 100 / 10)
      some { c with RAM := upd r2 (c.I + 2) (c.V a % 10) }
    else none
  | 9 => -- RAM[I:I+a+1] = V[:a+1]
    let lhsLen := min (a + 1) (4096 - c.I)
    if lhsLen = a + 1 ∨ a + 1 = 1 then
      let newRAM := (List.range lhsLen).foldl (fun r i => upd r (c.I + i) (c.V i)) c.RAM
      some { c with RAM := newRAM }
    else none
  | 10 => -- V[:a+1] = RAM[I:I+a+1]
    let rhsLen := min (a + 1) (4096 - c.I)
    if rhsLen = a + 1 then
      let newV := (List.range (a + 1)).foldl (fun v i => upd v i (c.RAM (c.I + i) % 256)) c.V
      some { c with V := newV }
    else if rhsLen = 1 then -- size-1 right-hand side broadcasts
      let newV := (List.range (a + 1)).foldl (fun v i => upd v i (c.RAM c.I % 256)) c.V
      some { c with V := newV }
    else none
  | _ => none -- `raise Exception('Invalid LD operation mode:', mode)`

/-- `ADD(*args, mode=...)`: mode 0 → `V[x] += kk` (wrapping, no flag);
mode 1 → 8-bit add with carry into `V[0xF]` written before the result;
mode 2 → `I += V[x]; I &= 0xfff`. -/
def ADD (c : Chip8) (mode a b : Nat) : Option Chip8 :=
  match mode with
  | 0 => some { c with V := upd c.V a ((c.V a + b) % 256) }
  | 1 =>
    let res := c.V a + c.V b
    let c1 := { c with V := upd c.V 0xF (if res > 0xff then 1 else 0) }
    some { c1 with V := upd c1.V a (res % 256) }
  | 2 => some { c with I := (c.I + c.V a) &&& 0xfff }
  | _ => none -- `raise Exception('Invalid ADD operation mode:', mode)`

/-- `SUB`: `res = int(V[x]) - int(V[y]); V[0xF] = (res > 0); V[x] = res`
(the flag store precedes the result store; the uint8 store wraps). -/
def SUB (c : Chip8) (x y : Nat) : Chip8 :=
  let res : Int := (c.V x : Int) - (c.V y : Int)
  let c1 := { c with V := upd c.V 0xF (if res > 0 then 1 else 0) }
  { c1 with V := upd c1.V x ((res.emod 256).toNat) }

/-- `OR`: `V[x] |= V[y]`. -/
def OR (c : Chip8) (x y : Nat) : Chip8 :=
  { c with V := upd c.V x (c.V x ||| c.V y) }

/-- `AND`: `V[x] &= V[y]`. -/
def AND (c : Chip8) (x y : Nat) : Chip8 :=
  { c with V := upd c.V x (c.V x &&& c.V y) }

/-- `XOR`: `V[x] ^= V[y]`. -/
def XOR (c : Chip8) (x y : Nat) : Chip8 :=
  { c with V := upd c.V x (c.V x ^^^ c.V y) }

/-- `SHR`: `V[0xF] = V[x] & 0x1; V[x] >>= 1` (flag stored first). -/
def SHR (c : Chip8) (x : Nat) : Chip8 :=
  let c1 := { c with V := upd c.V 0xF (c.V x &&& 0x1) }
  { c1 with V := upd c1.V x (c1.V x >>> 1) }

/-- `SHL`: `V[0xF] = (V[x] & 0x80 != 0); V[x] <<= 1` (uint8 wrap). -/
def SHL (c : Chip8) (x : Nat) : Chip8 :=
  let c1 := { c with V := upd c.V 0xF (if c.V x &&& 0x80 ≠ 0 then 1 else 0) }
  { c1 with V := upd c1.V x ((c1.V x <<< 1) % 256) }

/-- `RND`: `V[x] = random.randint(0, 255) & kk`, the random byte being the
`rand` oracle. -/
def RND (c : Chip8) (x kk : Nat) : Chip8 :=
  { c with V := upd c.V x ((c.rand % 256) &&& kk) }

/-- `SE(*args, mode=...)`: mode 0 compares `V[a]` with `kk = b`, mode 1
compares `V[a]` with `V[b]`; on equality `PC += 2`. -/
def SE (c : Chip8) (mode a b : Nat) : Option Chip8 :=
  match mode with
  | 0 => some (if c.V a = b then { c with PC := c.PC + 2 } else c)
  | 1 => some (if c.V a = c.V b then { c with PC := c.PC + 2 } else c)
  | _ => none -- `raise Exception('Invalid SE operation mode:', mode)`

/-- `SNE(*args, mode=...)`: like `SE` with the comparison negated. -/
def SNE (c : Chip8) (mode a b : Nat) : Option Chip8 :=
  match mode with
  | 0 => some (if c.V a ≠ b then { c with PC := c.PC + 2 } else c)
  | 1 => some (if c.V a ≠ c.V b then { c with PC := c.PC + 2 } else c)
  | _ => none -- `raise Exception('Invalid SNE operation mode:', mode)`

/-- `SKP`: `if keyboard[V[x]]: PC += 2`; indexing the 16-entry keyboard
with `V[x] ≥ 16` raises `IndexError`. -/
def SKP (c : Chip8) (x : Nat) : Option Chip8 :=
  if c.V x < 16 then
    some (if c.keyboard (c.V x) ≠ 0 then { c with PC := c.PC + 2 } else c)
  else none

/-- `SKNP`: `if not keyboard[V[x]]: PC += 2`. -/
def SKNP (c : Chip8) (x : Nat) : Option Chip8 :=
  if c.V x < 16 then
    some (if c.keyboard (c.V x) = 0 then { c with PC := c.PC + 2 } else c)
  else none

/-- `JP(nnn, mode)`: mode 0 assigns `PC = nnn`; mode 1 is the source line
`self.PC == nnn + self.V[0]` — a comparison, not an assignment, so the
state is returned unchanged. -/
def JP (c : Chip8) (nnn mode : Nat) : Option Chip8 :=
  match mode with
  | 0 => some { c with PC := nnn }
  | 1 => some c -- `self.PC == nnn + self.V[0]` evaluates and discards
  | _ => none -- `raise Exception('Invalid JP operation mode:', mode)`

/-- `CALL`: `push(PC + 2); PC = nnn`. -/
def CALL (c : Chip8) (nnn : Nat) : Option Chip8 :=
  (c.push (c.PC + 2)).map fun c1 => { c1 with PC := nnn }

/-- `RET`: `PC = pop()`. -/
def RET (c : Chip8) : Option Chip8 :=
  c.pop.map fun p => { p.1 with PC := p.2 }

/-- `CLS`: `screen[:,:] = 0`. -/
def CLS (c : Chip8) : Chip8 :=
  { c with screen := fun _ _ => false }

/-- Width of the clipped draw block: columns of `screen[Vx:Vx+8, ...]`. -/
def blockW (vx : Nat) : Nat := min (vx + 8) 64 - vx

/-- Height of the clipped draw block: rows of `screen[..., Vy:Vy+n]`. -/
def blockH (vy n : Nat) : Nat := min (vy + n) 32 - vy

/-- Length of `RAM[I:I+n]`: the sprite slice clips at the end of RAM. -/
def spriteRows (i n : Nat) : Nat := min n (4096 - i)

/-- `DRW`: reads `RAM[I:I+n]`, unpacks each byte MSB-first into 8 pixels,
XORs the bit array in place onto the transposed block
`screen[Vx:Vx+8, Vy:Vy+n].T`, then sets `V[0xF]` to whether any cell of
the post-XOR block differs from the (trimmed) bit array.  The trim
`bitarray[:h, :w]` leaves `k = min(spriteRows, h)` rows; the in-place
XOR then requires `k = h`, or `k = 1` which numpy broadcasts over all
`h` rows; any other mismatch raises (`none`). -/
def DRW (c : Chip8) (x y n : Nat) : Option Chip8 :=
  let vx := c.V x
  let vy := c.V y
  let w := blockW vx
  let h := blockH vy n
  let k := min (spriteRows c.I n) h
  if k = h ∨ k = 1 then
    let bit : Nat → Nat → Bool := fun r j =>
      (c.RAM (c.I + (if k = h then r else 0))).testBit (7 - j)
    let newScreen : Nat → Nat → Bool := fun px py =>
      if vx ≤ px ∧ px < vx + w ∧ vy ≤ py ∧ py < vy + h then
        xor (c.screen px py) (bit (py - vy) (px - vx))
      else c.screen px py
    let collision : Bool :=
      (List.range h).any fun r => (List.range w).any fun j =>
        newScreen (vx + j) (vy + r) != bit r j
    some { c with screen := newScreen, V := upd c.V 0xF (if collision then 1 else 0) }
  else none

/-- `run_instr`: decode the four nibbles, `kk` and `nnn`, and dispatch
along the source's `if`/`elif` chain.  `some (c', some m)` is a executed
instruction with its returned mnemonic string `m`; `some (c, none)` is
the implicit `return None` (no table match, state untouched); `none` is
an uncaught Python exception inside the handler. -/
def run_instr (c : Chip8) (instr : Nat) : Option (Chip8 × Option String) :=
  let s := instr >>> 12
  let x := (instr >>> 8) &&& 0xF
  let y := (instr >>> 4) &&& 0xF
  let n := instr &&& 0xF
  let kk := instr &&& 0xff
  let nnn := instr &&& 0xfff
  if s = 0x0 then
    if x = 0x0 then
      if kk = 0xE0 then some (c.CLS, some "CLS")
      else if kk = 0xEE then (c.RET).map fun c1 => (c1, some "RET")
      else some (c, none)
    else some (c, none)
  else if s = 0x1 then (c.JP nnn 0).map fun c1 => (c1, some "JP nnn")
  else if s = 0x2 then (c.CALL nnn).map fun c1 => (c1, some "CALL nnn")
  else if s = 0x3 then (c.SE 0 x kk).map fun c1 => (c1, some "SE Vx, kk")
  else if s = 0x4 then (c.SNE 0 x kk).map fun c1 => (c1, some "SNE Vx, kk")
  else if s = 0x5 then (c.SE 1 x y).map fun c1 => (c1, some "SE Vx, Vy")
  else if s = 0x6 then (c.LD 0 x kk).map fun c1 => (c1, some "LD Vx, kk")
  else if s = 0x7 then (c.ADD 0 x kk).map fun c1 => (c1, some "ADD Vx, kk")
  else if s = 0x8 then
    if n = 0 then (c.LD 1 x y).map fun c1 => (c1, some "LD Vx, Vy")
    else if n = 1 then some (c.OR x y, some "OR Vx, Vy")
    else if n = 2 then some (c.AND x y, some "AND Vx, Vy")
    else if n = 3 then some (c.XOR x y, some "XOR Vx, Vy")
    else if n = 4 then (c.ADD 1 x y).map fun c1 => (c1, some "ADD Vx, Vy")
    else if n = 5 then some (c.SUB x y, some "SUB Vx, Vy")
    else if n = 6 then some (c.SHR x, some "SHR Vx \x7b, Vy\x7d")
    else if n = 7 then some (c.SUB y x, some "SUBN Vx, Vy")
    else if n = 0xE then some (c.SHL x, some "SHL Vx \x7b, Vy\x7d")
    else some (c, none)
  else if s = 0x9 then (c.SNE 1 x y).map fun c1 => (c1, some "SNE Vx, Vy")
  else if s = 0xA then (c.LD 2 nnn 0).map fun c1 => (c1, some "LD I, nnn")
  else if s = 0xB then (c.JP nnn 1).map fun c1 => (c1, some "JP V0, nnn")
  else if s = 0xC then some (c.RND x kk, some "RND Vx, kk")
  else if s = 0xD then (c.DRW x y n).map fun c1 => (c1, some "DRW Vx, Vy, n")
  else if s = 0xE then
    if kk = 0x9E then (c.SKP x).map fun c1 => (c1, some "SKP Vx")
    else if kk = 0xA1 then (c.SKNP x).map fun c1 => (c1, some "SKNP Vx")
    else some (c, none)
  else if s = 0xF then
    if kk = 0x07 then (c.LD 3 x 0).map fun c1 => (c1, some "LD Vx, DT")
    else if kk = 0x0A then (c.LD 4 x 0).map fun c1 => (c1, some "LD Vx, K")
    else if kk = 0x15 then (c.LD 5 x 0).map fun c1 => (c1, some "LD DT, Vx")
    else if kk = 0x18 then (c.LD 6 x 0).map fun c1 => (c1, some "LD ST, Vx")
    else if kk = 0x1E then (c.ADD 2 x 0).map fun c1 => (c1, some "ADD I, Vx")
    else if kk = 0x29 then (c.LD 7 x 0).map fun c1 => (c1, some "LD F, Vx")
    else if kk = 0x33 then (c.LD 8 x 0).map fun c1 => (c1, some "LD B, Vx")
    else if kk = 0x55 then (c.LD 9 x 0).map fun c1 => (c1, some "LD [I], Vx")
    else if kk = 0x65 then (c.LD 10 x 0).map fun c1 => (c1, some "LD Vx, [I]")
    else some (c, none)
  else some (c, none)

end Chip8

/-- Outcome of one run-loop iteration on a fetched instruction word. -/
inductive StepResult where
  /-- An uncaught Python exception ended the process. -/
  | crash : StepResult
  /-- `run_instr` returned `None`: the loop prints the invalid
  instruction and returns, with the machine state untouched. -/
  | halt : Chip8 → Nat → StepResult
  /-- The loop continues with this state (after the conditional
  `PC += 2`). -/
  | next : Chip8 → StepResult

namespace Chip8

/-- One iteration of the instruction-execution core of `run`: execute the
fetched word, then `if result not in pc_modifying: PC += 2`.  (The input
poll and the wall-clock-gated timer tick of the loop body touch neither
`PC` nor the registers; the timer tick is `tick` below.) -/
def step (c : Chip8) (instr : Nat) : StepResult :=
  match c.run_instr instr with
  | none => StepResult.crash
  | some (c1, none) => StepResult.halt c1 instr
  | some (c1, some result) =>
    if result ∈ pc_modifying then StepResult.next c1
    else StepResult.next { c1 with PC := c1.PC + 2 }

/-- The timer update the loop performs when 1/60 s has elapsed:
`if DT > 0: DT -= 1` and `if ST > 0: ST -= 1`. -/
def tick (c : Chip8) : Chip8 :=
  let c1 := if c.DT > 0 then { c with DT := c.DT - 1 } else c
  if c1.ST > 0 then { c1 with ST := c1.ST - 1 } else c1

end Chip8

/-- States reachable from `Chip8.init` by executing instruction words
(any word: this over-approximates every loadable program) and timer
ticks. -/
inductive Reachable : Chip8 → Prop where
  | base : Reachable Chip8.init
  | step (c c' : Chip8) (w : Nat) : Reachable c →
      c.step w = StepResult.next c' → Reachable c'
  | tick (c : Chip8) : Reachable c → Reachable c.tick

/-- Projection: the state `run_instr` produces, when it does not raise. -/
def runState (c : Chip8) (w : Nat) : Option Chip8 :=
  (c.run_instr w).map Prod.fst

/-- Projection: the mnemonic `run_instr` returns (`some none` is the
invalid-instruction outcome). -/
def runMnem (c : Chip8) (w : Nat) : Option (Option String) :=
  (c.run_instr w).map Prod.snd

/-- Projection: register `i` after executing `w`. -/
def runVReg (c : Chip8) (w i : Nat) : Option Nat :=
  (runState c w).map fun c1 => c1.V i

/-- Projection: pixel `(px, py)` after executing `w`. -/
def runPixel (c : Chip8) (w px py : Nat) : Option Bool :=
  (runState c w).map fun c1 => c1.screen px py

/-- Projection: `PC` after executing `w` (before the loop's advance). -/
def runPC (c : Chip8) (w : Nat) : Option Nat :=
  (runState c w).map fun c1 => c1.PC

/-- Projection: `SP` after executing `w`. -/
def runSP (c : Chip8) (w : Nat) : Option Int :=
  (runState c w).map fun c1 => c1.SP

/-- Projection: the state `run_instr` produces, defaulting to the input
state when it raises (used only to chain concrete evaluations). -/
def runStateD (c : Chip8) (w : Nat) : Chip8 :=
  (runState c w).getD c

/-! ### Decode arithmetic: the nibble extractions as `/` and `%`. -/

theorem shr12_eq (w : Nat) : w >>> 12 = w / 4096 := by
  rw [Nat.shiftRight_eq_div_pow]

theorem and_mask4 (w : Nat) : w &&& 0xF = w % 16 := by
  have h := Nat.and_pow_two_sub_one_eq_mod w 4
  norm_num at h; exact h

theorem and_mask8 (w : Nat) : w &&& 0xFF = w % 256 := by
  have h := Nat.and_pow_two_sub_one_eq_mod w 8
  norm_num at h; exact h

theorem and_mask12 (w : Nat) : w &&& 0xFFF = w % 4096 := by
  have h := Nat.and_pow_two_sub_one_eq_mod w 12
  norm_num at h; exact h

theorem shr8_and_eq (w : Nat) : (w >>> 8) &&& 0xF = w / 256 % 16 := by
  rw [Nat.shiftRight_eq_div_pow, and_mask4]

theorem shr4_and_eq (w : Nat) : (w >>> 4) &&& 0xF = w / 16 % 16 := by
  rw [Nat.shiftRight_eq_div_pow, and_mask4]

theorem shr8_eq (w : Nat) : w >>> 8 = w / 256 := by
  rw [Nat.shiftRight_eq_div_pow]

theorem shr4_eq (w : Nat) : w >>> 4 = w / 16 := by
  rw [Nat.shiftRight_eq_div_pow]

/-- Claim C3: executing Bnnn (`JP V0, nnn`) never assigns the program
counter in the executor — the source line is a comparison, not an
assignment — so the state is returned unchanged, and with the run
loop's unconditional advance the net effect is `PC + 2`. -/
theorem C3_jp_v0_noop (c : Chip8) (nnn : Nat) (hn : nnn < 4096) :
    c.run_instr (0xB000 + nnn) = some (c, some "JP V0, nnn") ∧
    c.step (0xB000 + nnn) = StepResult.next { c with PC := c.PC + 2 } := by
  have h1 : (0xB000 + nnn) / 4096 = 0xB := by omega
  have hrun : c.run_instr (0xB000 + nnn) = some (c, some "JP V0, nnn") := by
    simp [Chip8.run_instr, shr12_eq, h1, Chip8.JP]
  refine ⟨hrun, ?_⟩
  simp [Chip8.step, hrun, pc_modifying]

/-- Claim C3 witness at `nnn = 0x123` on a concrete state. -/
theorem C3_jp_v0_noop_witness :
    (0x123 : Nat) < 4096 ∧
    Chip8.init.run_instr 0xB123 = some (Chip8.init, some "JP V0, nnn") ∧
    Chip8.init.step 0xB123 =
      StepResult.next { Chip8.init with PC := Chip8.init.PC + 2 } :=
  ⟨by decide, C3_jp_v0_noop Chip8.init 0x123 (by decide)⟩

/-- Claim C4: each conditional-skip instruction adds 2 to `PC` itself
when its condition holds, and the loop adds 2 unconditionally, so one
run-loop iteration advances `PC` by 4 when the condition holds and by 2
otherwise.  (For `SKP`/`SKNP` the keyboard index `V[x]` must be in
range, or the Python raises `IndexError`.) -/
theorem C4_skip_pc (c : Chip8) (x y kk : Nat) (hx : x < 16) (hy : y < 16)
    (hkk : kk < 256) (hkb : c.V x < 16) :
    (∃ d, c.step (0x3000 + x * 256 + kk) = StepResult.next d ∧
      d.PC = c.PC + (if c.V x = kk then 4 else 2)) ∧
    (∃ d, c.step (0x4000 + x * 256 + kk) = StepResult.next d ∧
      d.PC = c.PC + (if c.V x ≠ kk then 4 else 2)) ∧
    (∃ d, c.step (0x5000 + x * 256 + y * 16) = StepResult.next d ∧
      d.PC = c.PC + (if c.V x = c.V y then 4 else 2)) ∧
    (∃ d, c.step (0x9000 + x * 256 + y * 16) = StepResult.next d ∧
      d.PC = c.PC + (if c.V x ≠ c.V y then 4 else 2)) ∧
    (∃ d, c.step (0xE09E + x * 256) = StepResult.next d ∧
      d.PC = c.PC + (if c.keyboard (c.V x) ≠ 0 then 4 else 2)) ∧
    (∃ d, c.step (0xE0A1 + x * 256) = StepResult.next d ∧
      d.PC = c.PC + (if c.keyboard (c.V x) = 0 then 4 else 2)) := by
  refine ⟨?_, ?_, ?_, ?_, ?_, ?_⟩
  · have h1 : (0x3000 + x * 256 + kk) / 4096 = 0x3 := by omega
    have h2 : (0x3000 + x * 256 + kk) / 256 % 16 = x := by omega
    have h3 : (0x3000 + x * 256 + kk) % 256 = kk := by omega
    simp only [Chip8.step, Chip8.run_instr, shr12_eq, shr8_and_eq, and_mask8,
      h1, h2, h3, Chip8.SE]
    norm_num [pc_modifying]
    refine ⟨_, rfl, ?_⟩
    by_cases h : c.V x = kk <;> simp [h]
  · have h1 : (0x4000 + x * 256 + kk) / 4096 = 0x4 := by omega
    have h2 : (0x4000 + x * 256 + kk) / 256 % 16 = x := by omega
    have h3 : (0x4000 + x * 256 + kk) % 256 = kk := by omega
    simp only [Chip8.step, Chip8.run_instr, shr12_eq, shr8_and_eq, and_mask8,
      h1, h2, h3, Chip8.SNE]
    norm_num [pc_modifying]
    refine ⟨_, rfl, ?_⟩
    by_cases h : c.V x = kk <;> simp [h]
  · have h1 : (0x5000 + x * 256 + y * 16) / 4096 = 0x5 := by omega
    have h2 : (0x5000 + x * 256 + y * 16) / 256 % 16 = x := by omega
    have h3 : (0x5000 + x * 256 + y * 16) / 16 % 16 = y := by omega
    simp only [Chip8.step, Chip8.run_instr, shr12_eq, shr8_and_eq, shr4_and_eq,
      h1, h2, h3, Chip8.SE]
    norm_num [pc_modifying]
    refine ⟨_, rfl, ?_⟩
    by_cases h : c.V x = c.V y <;> simp [h]
  · have h1 : (0x9000 + x * 256 + y * 16) / 4096 = 0x9 := by omega
    have h2 : (0x9000 + x * 256 + y * 16) / 256 % 16 = x := by omega
    have h3 : (0x9000 + x * 256 + y * 16) / 16 % 16 = y := by omega
    simp only [Chip8.step, Chip8.run_instr, shr12_eq, shr8_and_eq, shr4_and_eq,
      h1, h2, h3, Chip8.SNE]
    norm_num [pc_modifying]
    refine ⟨_, rfl, ?_⟩
    by_cases h : c.V x = c.V y <;> simp [h]
  · have h1 : (0xE09E + x * 256) / 4096 = 0xE := by omega
    have h2 : (0xE09E + x * 256) / 256 % 16 = x := by omega
    have h3 : (0xE09E + x * 256) % 256 = 0x9E := by omega
    simp only [Chip8.step, Chip8.run_instr, shr12_eq, shr8_and_eq, and_mask8,
      h1, h2, h3, Chip8.SKP, hkb]
    norm_num [pc_modifying]
    refine ⟨_, rfl, ?_⟩
    by_cases h : c.keyboard (c.V x) = 0 <;> simp [h]
  · have h1 : (0xE0A1 + x * 256) / 4096 = 0xE := by omega
    have h2 : (0xE0A1 + x * 256) / 256 % 16 = x := by omega
    have h3 : (0xE0A1 + x * 256) % 256 = 0xA1 := by omega
    simp only [Chip8.step, Chip8.run_instr, shr12_eq, shr8_and_eq, and_mask8,
      h1, h2, h3, Chip8.SKNP, hkb]
    norm_num [pc_modifying]
    refine ⟨_, rfl, ?_⟩
    by_cases h : c.keyboard (c.V x) = 0 <;> simp [h]

/-- State with `V0 = 7` for the C4 witness. -/
def c4wit : Chip8 := { Chip8.init with V := upd Chip8.init.V 0 7 }

/-- Witness for C4_skip_pc at `x = 0, y = 1, kk = 7` on `c4wit`: the
satisfied `SE V0, 7` advances `PC` by 4. -/
theorem C4_skip_pc_witness :
    (0 : Nat) < 16 ∧ (1 : Nat) < 16 ∧ (7 : Nat) < 256 ∧ c4wit.V 0 < 16 ∧
    (∃ d, c4wit.step (0x3000 + 0 * 256 + 7) = StepResult.next d ∧
      d.PC = c4wit.PC + 4) := by
  refine ⟨by decide, by decide, by decide, by decide, ?_⟩
  obtain ⟨d, hd, hpc⟩ :=
    (C4_skip_pc c4wit 0 1 7 (by decide) (by decide) (by decide) (by decide)).1
  refine ⟨d, hd, ?_⟩
  rw [hpc]
  simp [show c4wit.V 0 = 7 from rfl]

/-- Claim C5: `CALL nnn` pushes `PC + 2` (the address after the call)
and jumps to `nnn`; an immediately following `RET` pops that saved
address back into `PC`, so afterwards `PC = PC_before + 2`. -/
theorem C5_call_ret (c : Chip8) (nnn : Nat) (hn : nnn < 4096)
    (hSP1 : -1 ≤ c.SP) (hSP2 : c.SP < 15) (hPC : c.PC + 2 < 65536) :
    ∃ c1, c.step (0x2000 + nnn) = StepResult.next c1 ∧
      c1.PC = nnn ∧ c1.SP = c.SP + 1 ∧
      c1.stack (c.SP + 1).toNat = c.PC + 2 ∧
      ∃ c2, c1.step 0x00EE = StepResult.next c2 ∧
        c2.PC = c.PC + 2 ∧ c2.SP = c.SP := by
  have h1 : (0x2000 + nnn) / 4096 = 0x2 := by omega
  have h2 : (0x2000 + nnn) % 4096 = nnn := by omega
  have hcond : (0 : Int) ≤ c.SP + 1 ∧ c.SP + 1 < ((16 : Nat) : Int) :=
    ⟨by omega, by omega⟩
  have hidx : npIndex (c.SP + 1) 16 = some (c.SP + 1).toNat := by
    simp only [npIndex]
    rw [if_pos hcond]
  have hpush : c.push (c.PC + 2) = some { c with SP := c.SP + 1, stack := upd c.stack (c.SP + 1).toNat ((c.PC + 2) % 65536) } := by
    simp only [Chip8.push, hidx, Option.map_some']
  have hrun : c.run_instr (0x2000 + nnn) = some ({ c with SP := c.SP + 1, stack := upd c.stack (c.SP + 1).toNat ((c.PC + 2) % 65536), PC := nnn }, some "CALL nnn") := by
    simp only [Chip8.run_instr, shr12_eq, and_mask12, h1, h2]
    norm_num [Chip8.CALL, hpush]
  have hstep : c.step (0x2000 + nnn) = StepResult.next { c with SP := c.SP + 1, stack := upd c.stack (c.SP + 1).toNat ((c.PC + 2) % 65536), PC := nnn } := by
    simp [Chip8.step, hrun, pc_modifying]
  refine ⟨_, hstep, rfl, rfl, ?_, ?_⟩
  · simp [upd]
    omega
  · have hpop : Chip8.pop { c with SP := c.SP + 1, stack := upd c.stack (c.SP + 1).toNat ((c.PC + 2) % 65536), PC := nnn } = some ({ c with SP := c.SP, stack := upd c.stack (c.SP + 1).toNat ((c.PC + 2) % 65536), PC := nnn }, (c.PC + 2) % 65536) := by
      simp only [Chip8.pop, hidx, Option.map_some']
      simp [upd]
    have hret : Chip8.run_instr { c with SP := c.SP + 1, stack := upd c.stack (c.SP + 1).toNat ((c.PC + 2) % 65536), PC := nnn } 0x00EE = some ({ c with SP := c.SP, stack := upd c.stack (c.SP + 1).toNat ((c.PC + 2) % 65536), PC := (c.PC + 2) % 65536 }, some "RET") := by
      simp only [Chip8.run_instr, shr12_eq, shr8_and_eq, and_mask8]
      norm_num [Chip8.RET, hpop]
    have hstep2 : Chip8.step { c with SP := c.SP + 1, stack := upd c.stack (c.SP + 1).toNat ((c.PC + 2) % 65536), PC := nnn } 0x00EE = StepResult.next { c with SP := c.SP, stack := upd c.stack (c.SP + 1).toNat ((c.PC + 2) % 65536), PC := (c.PC + 2) % 65536 } := by
      simp [Chip8.step, hret, pc_modifying]
    refine ⟨_, hstep2, ?_, rfl⟩
    simp
    omega

/-- State with `PC = 0x200` for the C5 witness. -/
def c5wit : Chip8 := { Chip8.init with PC := 0x200 }

/-- Witness for C5_call_ret: `CALL 0x400` from `PC = 0x200` followed by
`RET` lands on `0x202`. -/
theorem C5_call_ret_witness :
    ((0x400 : Nat) < 4096 ∧ (-1 : Int) ≤ c5wit.SP ∧ c5wit.SP < 15 ∧
      c5wit.PC + 2 < 65536) ∧
    (∃ c1, c5wit.step (0x2000 + 0x400) = StepResult.next c1 ∧
      c1.PC = 0x400 ∧ c1.SP = c5wit.SP + 1 ∧
      c1.stack (c5wit.SP + 1).toNat = c5wit.PC + 2 ∧
      ∃ c2, c1.step 0x00EE = StepResult.next c2 ∧
        c2.PC = c5wit.PC + 2 ∧ c2.SP = c5wit.SP) :=
  ⟨⟨by decide, by decide, by decide, by decide⟩,
    C5_call_ret c5wit 0x400 (by decide) (by decide) (by decide) (by decide)⟩

/-- State with `V[0xF] = 5` (all other registers 0) for the C2
counterexample. -/
def c2cex : Chip8 := { Chip8.init with V := upd Chip8.init.V 0xF 5 }

/-- Claim C2 counterexample: take `x = 0xF`, `y = 0`, `V[0xF] = 5`,
`V[0] = 0` and execute `0x8F05` (`SUB VF, V0`).  The signed difference
is `5 > 0`, so the claim requires the final `V[0xF] = 1`; the code
stores the flag first and then overwrites `V[0xF]` with the wrapped
difference `5`. -/
theorem C2_sub_flag_counterexample :
    c2cex.V 0xF = 5 ∧ c2cex.V 0 = 0 ∧
    runMnem c2cex 0x8F05 = some (some "SUB Vx, Vy") ∧
    runVReg c2cex 0x8F05 0xF = some 5 ∧
    runVReg c2cex 0x8F05 0xF ≠ some 1 := by
  refine ⟨by decide, by decide, by decide, by decide, by decide⟩

/-- Claim C2 (amended: the flag clause holds for `x ≠ 0xF`; when
`x = 0xF` the stored difference overwrites the flag): `SUB Vx, Vy`
(8xy5) sets `V[0xF]` to 1 exactly when the signed difference
`V[x] - V[y]` is strictly positive, and stores the difference wrapped
modulo 256 into `V[x]`; other registers are untouched. -/
theorem C2_sub_amended (c : Chip8) (x y : Nat) (hx : x < 16) (hy : y < 16)
    (hxF : x ≠ 0xF) :
    ∃ c1, c.run_instr (0x8000 + x * 256 + y * 16 + 5) =
        some (c1, some "SUB Vx, Vy") ∧
      c1.V 0xF = (if (c.V x : Int) - (c.V y : Int) > 0 then 1 else 0) ∧
      c1.V x = (((c.V x : Int) - (c.V y : Int)).emod 256).toNat ∧
      (∀ i, i ≠ x → i ≠ 0xF → c1.V i = c.V i) ∧
      c1.PC = c.PC ∧ c1.I = c.I ∧ c1.screen = c.screen := by
  have h1 : (0x8000 + x * 256 + y * 16 + 5) / 4096 = 0x8 := by omega
  have h2 : (0x8000 + x * 256 + y * 16 + 5) / 256 % 16 = x := by omega
  have h3 : (0x8000 + x * 256 + y * 16 + 5) / 16 % 16 = y := by omega
  have h4 : (0x8000 + x * 256 + y * 16 + 5) % 16 = 5 := by omega
  have hFx : (0xF : Nat) ≠ x := Ne.symm hxF
  have hrun : c.run_instr (0x8000 + x * 256 + y * 16 + 5) =
      some (c.SUB x y, some "SUB Vx, Vy") := by
    simp only [Chip8.run_instr, shr12_eq, shr8_eq, shr4_eq, and_mask4,
      h1, h2, h3, h4]
    norm_num
  refine ⟨_, hrun, ?_, ?_, ?_, rfl, rfl, rfl⟩
  · simp [Chip8.SUB, upd, hFx]
  · simp [Chip8.SUB, upd]
  · intro i hix hiF
    simp [Chip8.SUB, upd, hix, hiF]

/-- State with `V[0] = 7, V[1] = 3` for the C2 witness. -/
def c2wit : Chip8 := { Chip8.init with V := upd (upd Chip8.init.V 0 7) 1 3 }

/-- Witness for C2_sub_amended at `x = 0, y = 1` on `c2wit`:
`SUB V0, V1` stores `4` and sets the flag to `1`. -/
theorem C2_sub_amended_witness :
    ((0 : Nat) < 16 ∧ (1 : Nat) < 16 ∧ (0 : Nat) ≠ 0xF) ∧
    runVReg c2wit (0x8000 + 0 * 256 + 1 * 16 + 5) 0 = some 4 ∧
    runVReg c2wit (0x8000 + 0 * 256 + 1 * 16 + 5) 0xF = some 1 := by
  refine ⟨⟨by decide, by decide, by decide⟩, ?_, ?_⟩ <;>
  · obtain ⟨c1, hrun, hflag, hval, _⟩ :=
      C2_sub_amended c2wit 0 1 (by decide) (by decide) (by decide)
    have hf : c1.V 0xF = 1 := by rw [hflag]; decide
    have hv : c1.V 0 = 4 := by rw [hval]; decide
    simp [runVReg, runState, hrun, hf, hv]

/-- State with `V[0xF] = 200, V[0] = 100` for the C8 counterexample. -/
def c8cex : Chip8 := { Chip8.init with V := upd (upd Chip8.init.V 0xF 200) 0 100 }

/-- Claim C8 counterexample: take `x = 0xF`, `y = 0`, `V[0xF] = 200`,
`V[0] = 100` and execute `0x8F04` (`ADD VF, V0`).  The sum `300`
exceeds 255, so the claim requires the final `V[0xF] = 1`; the code
stores the carry flag first and then overwrites `V[0xF]` with the
wrapped sum `44`. -/
theorem C8_add_carry_counterexample :
    c8cex.V 0xF = 200 ∧ c8cex.V 0 = 100 ∧
    runMnem c8cex 0x8F04 = some (some "ADD Vx, Vy") ∧
    runVReg c8cex 0x8F04 0xF = some 44 ∧
    runVReg c8cex 0x8F04 0xF ≠ some 1 := by
  refine ⟨by decide, by decide, by decide, by decide, by decide⟩

/-- State after executing `0x6005` (`LD V0, 5`) from `init`. -/
def c8ld1 : Chip8 := runStateD Chip8.init 0x6005

/-- State after then executing `0x6103` (`LD V1, 3`). -/
def c8ld2 : Chip8 := runStateD c8ld1 0x6103

/-- Claim C8 (amended: the flag clause holds for `x ≠ 0xF`; when
`x = 0xF` the wrapped sum overwrites the flag): `ADD Vx, Vy` (8xy4)
sets `V[0xF]` to 1 exactly when the unsigned sum exceeds 255 and stores
the sum wrapped modulo 256 into `V[x]`; and in particular after
`V[0] = 5` and `V[1] = 3` (loaded via 0x6005, 0x6103), instruction
`0x8014` yields `V[0] = 8` and `V[0xF] = 0`. -/
theorem C8_add_amended :
    (∀ (c : Chip8) (x y : Nat), x < 16 → y < 16 → x ≠ 0xF →
      ∃ c1, c.run_instr (0x8000 + x * 256 + y * 16 + 4) =
          some (c1, some "ADD Vx, Vy") ∧
        c1.V 0xF = (if c.V x + c.V y > 255 then 1 else 0) ∧
        c1.V x = (c.V x + c.V y) % 256 ∧
        (∀ i, i ≠ x → i ≠ 0xF → c1.V i = c.V i)) ∧
    (c8ld2.V 0 = 5 ∧ c8ld2.V 1 = 3 ∧
     runVReg c8ld2 0x8014 0 = some 8 ∧ runVReg c8ld2 0x8014 0xF = some 0) := by
  constructor
  · intro c x y hx hy hxF
    have h1 : (0x8000 + x * 256 + y * 16 + 4) / 4096 = 0x8 := by omega
    have h2 : (0x8000 + x * 256 + y * 16 + 4) / 256 % 16 = x := by omega
    have h3 : (0x8000 + x * 256 + y * 16 + 4) / 16 % 16 = y := by omega
    have h4 : (0x8000 + x * 256 + y * 16 + 4) % 16 = 4 := by omega
    have hFx : (0xF : Nat) ≠ x := Ne.symm hxF
    have hadd : c.ADD 1 x y = some { c with V := upd (upd c.V 0xF (if c.V x + c.V y > 0xff then 1 else 0)) x ((c.V x + c.V y) % 256) } := rfl
    have hrun : c.run_instr (0x8000 + x * 256 + y * 16 + 4) =
        some ({ c with V := upd (upd c.V 0xF (if c.V x + c.V y > 0xff then 1 else 0)) x ((c.V x + c.V y) % 256) }, some "ADD Vx, Vy") := by
      simp only [Chip8.run_instr, shr12_eq, shr8_eq, shr4_eq, and_mask4,
        h1, h2, h3, h4]
      norm_num [hadd]
    refine ⟨_, hrun, ?_, ?_, ?_⟩
    · simp [upd, hFx]
    · simp [upd]
    · intro i hix hiF
      simp [upd, hix, hiF]
  · refine ⟨by decide, by decide, by decide, by decide⟩

/-- Witness for the universally quantified part of C8_add_amended at
`x = 0, y = 1` on the chained state `c8ld2`. -/
theorem C8_add_amended_witness :
    ((0 : Nat) < 16 ∧ (1 : Nat) < 16 ∧ (0 : Nat) ≠ 0xF) ∧
    runVReg c8ld2 (0x8000 + 0 * 256 + 1 * 16 + 4) 0 = some 8 ∧
    runVReg c8ld2 (0x8000 + 0 * 256 + 1 * 16 + 4) 0xF = some 0 := by
  refine ⟨⟨by decide, by decide, by decide⟩, ?_, ?_⟩ <;>
  · obtain ⟨c1, hrun, hflag, hval, _⟩ :=
      C8_add_amended.1 c8ld2 0 1 (by decide) (by decide) (by decide)
    have hf : c1.V 0xF = 0 := by rw [hflag]; decide
    have hv : c1.V 0 = 8 := by rw [hval]; decide
    simp [runVReg, runState, hrun, hf, hv]

/-- Claim C10: `SUBN Vx, Vy` (8xy7) dispatches to `SUB(y, x)`: it
computes `V[y] - V[x]`, sets `V[0xF]` to whether that difference is
strictly positive, and stores the wrapped difference into `V[y]` — not
into `V[x]`, which is left unchanged (for `x, y ≠ 0xF`, `x ≠ y`). -/
theorem C10_subn_target (c : Chip8) (x y : Nat) (hx : x < 16) (hy : y < 16)
    (hxy : x ≠ y) (hxF : x ≠ 0xF) (hyF : y ≠ 0xF) :
    ∃ c1, c.run_instr (0x8000 + x * 256 + y * 16 + 7) =
        some (c1, some "SUBN Vx, Vy") ∧
      c1.V 0xF = (if (c.V y : Int) - (c.V x : Int) > 0 then 1 else 0) ∧
      c1.V y = (((c.V y : Int) - (c.V x : Int)).emod 256).toNat ∧
      c1.V x = c.V x ∧
      (∀ i, i ≠ y → i ≠ 0xF → c1.V i = c.V i) := by
  have h1 : (0x8000 + x * 256 + y * 16 + 7) / 4096 = 0x8 := by omega
  have h2 : (0x8000 + x * 256 + y * 16 + 7) / 256 % 16 = x := by omega
  have h3 : (0x8000 + x * 256 + y * 16 + 7) / 16 % 16 = y := by omega
  have h4 : (0x8000 + x * 256 + y * 16 + 7) % 16 = 7 := by omega
  have hFy : (0xF : Nat) ≠ y := Ne.symm hyF
  have hrun : c.run_instr (0x8000 + x * 256 + y * 16 + 7) =
      some (c.SUB y x, some "SUBN Vx, Vy") := by
    simp only [Chip8.run_instr, shr12_eq, shr8_eq, shr4_eq, and_mask4,
      h1, h2, h3, h4]
    norm_num
  refine ⟨_, hrun, ?_, ?_, ?_, ?_⟩
  · simp [Chip8.SUB, upd, hFy]
  · simp [Chip8.SUB, upd]
  · simp [Chip8.SUB, upd, hxy, hxF]
  · intro i hiy hiF
    simp [Chip8.SUB, upd, hiy, hiF]

/-- State with `V[2] = 9, V[3] = 4` for the C10 witness. -/
def c10wit : Chip8 := { Chip8.init with V := upd (upd Chip8.init.V 2 9) 3 4 }

/-- Witness for C10_subn_target at `x = 2, y = 3` on `c10wit`:
`SUBN V2, V3` stores `(4 - 9) mod 256 = 251` into `V[3]`, clears the
flag, and leaves `V[2] = 9`. -/
theorem C10_subn_target_witness :
    ((2 : Nat) < 16 ∧ (3 : Nat) < 16 ∧ (2 : Nat) ≠ 3 ∧ (2 : Nat) ≠ 0xF ∧
      (3 : Nat) ≠ 0xF) ∧
    runVReg c10wit (0x8000 + 2 * 256 + 3 * 16 + 7) 3 = some 251 ∧
    runVReg c10wit (0x8000 + 2 * 256 + 3 * 16 + 7) 0xF = some 0 ∧
    runVReg c10wit (0x8000 + 2 * 256 + 3 * 16 + 7) 2 = some 9 := by
  refine ⟨⟨by decide, by decide, by decide, by decide, by decide⟩, ?_, ?_, ?_⟩ <;>
  · obtain ⟨c1, hrun, hflag, hval, hvx, _⟩ :=
      C10_subn_target c10wit 2 3 (by decide) (by decide) (by decide) (by decide)
        (by decide)
    have hf : c1.V 0xF = 0 := by rw [hflag]; decide
    have hv : c1.V 3 = 251 := by rw [hval]; decide
    have hx2 : c1.V 2 = 9 := by rw [hvx]; decide
    simp [runVReg, runState, hrun, hf, hv, hx2]

/-- Behaviour of `DRW` when the sprite slice is fully in RAM
(`I + n ≤ 4096`): the clipped block of the screen is XORed with the
MSB-first sprite bits, `V[0xF]` reports whether the post-XOR block
differs anywhere from the sprite bits, and everything else is
untouched. -/
theorem DRW_spec (c : Chip8) (x y n : Nat) (hI : c.I + n ≤ 4096) :
    ∃ c1, c.DRW x y n = some c1 ∧
      (∀ px py, c1.screen px py =
        if c.V x ≤ px ∧ px < min (c.V x + 8) 64 ∧ c.V y ≤ py ∧ py < min (c.V y + n) 32 then
          xor (c.screen px py) ((c.RAM (c.I + (py - c.V y))).testBit (7 - (px - c.V x)))
        else c.screen px py) ∧
      c1.V 0xF = (if ∃ r < min (c.V y + n) 32 - c.V y, ∃ j < min (c.V x + 8) 64 - c.V x,
          c1.screen (c.V x + j) (c.V y + r) ≠ (c.RAM (c.I + r)).testBit (7 - j)
        then 1 else 0) ∧
      (∀ i, i ≠ 0xF → c1.V i = c.V i) ∧
      c1.RAM = c.RAM ∧ c1.PC = c.PC ∧ c1.I = c.I ∧ c1.SP = c.SP := by
  have hk : min (Chip8.spriteRows c.I n) (Chip8.blockH (c.V y) n) =
      Chip8.blockH (c.V y) n := by
    simp only [Chip8.spriteRows, Chip8.blockH]
    omega
  have hcond : min (Chip8.spriteRows c.I n) (Chip8.blockH (c.V y) n) =
      Chip8.blockH (c.V y) n ∨
      min (Chip8.spriteRows c.I n) (Chip8.blockH (c.V y) n) = 1 := Or.inl hk
  simp only [Chip8.DRW]
  rw [if_pos hcond]
  refine ⟨_, rfl, ?_, ?_, ?_, rfl, rfl, rfl, rfl⟩
  · intro px py
    simp only [hk, eq_self_iff_true, if_true]
    have hiff : (c.V x ≤ px ∧ px < c.V x + Chip8.blockW (c.V x) ∧
        c.V y ≤ py ∧ py < c.V y + Chip8.blockH (c.V y) n) ↔
        (c.V x ≤ px ∧ px < min (c.V x + 8) 64 ∧ c.V y ≤ py ∧
          py < min (c.V y + n) 32) := by
      unfold Chip8.blockW Chip8.blockH
      omega
    exact if_congr hiff rfl rfl
  · simp only [upd, eq_self_iff_true, if_true, hk]
    refine if_congr ?_ rfl rfl
    simp only [List.any_eq_true, List.mem_range, bne_iff_ne, Chip8.blockH,
      Chip8.blockW, eq_self_iff_true, if_true]
  · intro i hiF
    simp [upd, hiF]

/-- State with `I = 0x300` and sprite byte `0xFF` at `0x300` for the C1
particular example. -/
def c1w : Chip8 :=
  { Chip8.init with I := 0x300, RAM := upd Chip8.init.RAM 0x300 0xFF }

/-- Claim C1: `DRW Vx, Vy, n` reads `n` bytes at `I` as an 8-wide,
`n`-tall MSB-first bitmap, XORs it onto the display at origin
`(V[x], V[y])` clipped (not wrapped) at the right/bottom edges, and
sets `V[0xF]` to 1 exactly when the post-XOR buffer content of the
overlapped region differs from the sprite bits, else 0; in particular
drawing sprite `[0xFF]` at `(0, 0)` onto a clear buffer yields one row
of eight lit pixels with `V[0xF] = 0`. -/
theorem C1_drw_blit :
    (∀ (c : Chip8) (x y n : Nat), x < 16 → y < 16 → n < 16 → c.I + n ≤ 4096 →
      ∃ c1, c.run_instr (0xD000 + x * 256 + y * 16 + n) =
          some (c1, some "DRW Vx, Vy, n") ∧
        (∀ px py, c1.screen px py =
          if c.V x ≤ px ∧ px < min (c.V x + 8) 64 ∧ c.V y ≤ py ∧
              py < min (c.V y + n) 32 then
            xor (c.screen px py)
              ((c.RAM (c.I + (py - c.V y))).testBit (7 - (px - c.V x)))
          else c.screen px py) ∧
        c1.V 0xF = (if ∃ r < min (c.V y + n) 32 - c.V y,
            ∃ j < min (c.V x + 8) 64 - c.V x,
            c1.screen (c.V x + j) (c.V y + r) ≠
              (c.RAM (c.I + r)).testBit (7 - j)
          then 1 else 0) ∧
        (∀ i, i ≠ 0xF → c1.V i = c.V i) ∧
        c1.RAM = c.RAM ∧ c1.PC = c.PC ∧ c1.I = c.I) ∧
    (runMnem c1w 0xD011 = some (some "DRW Vx, Vy, n") ∧
      (∀ j, j < 8 → runPixel c1w 0xD011 j 0 = some true) ∧
      runVReg c1w 0xD011 0xF = some 0) := by
  constructor
  · intro c x y n hx hy hn hI
    have h1 : (0xD000 + x * 256 + y * 16 + n) / 4096 = 0xD := by omega
    have h2 : (0xD000 + x * 256 + y * 16 + n) / 256 % 16 = x := by omega
    have h3 : (0xD000 + x * 256 + y * 16 + n) / 16 % 16 = y := by omega
    have h4 : (0xD000 + x * 256 + y * 16 + n) % 16 = n := by omega
    obtain ⟨c1, hdrw, hscreen, hflag, hV, hRAM, hPC, hI2, _⟩ :=
      DRW_spec c x y n hI
    have hrun : c.run_instr (0xD000 + x * 256 + y * 16 + n) =
        some (c1, some "DRW Vx, Vy, n") := by
      simp only [Chip8.run_instr, shr12_eq, shr8_eq, shr4_eq, and_mask4,
        h1, h2, h3, h4]
      norm_num [hdrw]
    exact ⟨c1, hrun, hscreen, hflag, hV, hRAM, hPC, hI2⟩
  · refine ⟨by decide, by decide, by decide⟩

/-- Witness for the universally quantified part of C1_drw_blit at
`x = 0, y = 1, n = 1` on `c1w`. -/
theorem C1_drw_blit_witness :
    ((0 : Nat) < 16 ∧ (1 : Nat) < 16 ∧ (1 : Nat) < 16 ∧ c1w.I + 1 ≤ 4096) ∧
    (∃ c1, c1w.run_instr (0xD000 + 0 * 256 + 1 * 16 + 1) =
      some (c1, some "DRW Vx, Vy, n")) := by
  refine ⟨⟨by decide, by decide, by decide, by decide⟩, ?_⟩
  obtain ⟨c1, hrun, _⟩ :=
    C1_drw_blit.1 c1w 0 1 1 (by decide) (by decide) (by decide) (by decide)
  exact ⟨c1, hrun⟩

/-- State with an empty call stack (`SP = -1`) and `stack[15] = 0xABC`
for C7. -/
def c7state : Chip8 :=
  { Chip8.init with stack := upd Chip8.init.stack 15 0xABC }

/-- State with a full call stack (`SP = 15`) for C7. -/
def c7full : Chip8 := { Chip8.init with SP := 15 }

/-- Claim C7 describes required error handling the code does not
implement: `RET` with an empty stack (`SP = -1`) silently reads
`stack[-1]` — numpy wraps the index to `stack[15]` — into `PC` and
decrements `SP` to `-2`, with no error at all; `CALL` with 16 stacked
return addresses dies with an uncaught `IndexError` (modelled `none`)
rather than a detected and reported fault. -/
theorem C7_stack_fault_behavior :
    runMnem c7state 0x00EE = some (some "RET") ∧
    runPC c7state 0x00EE = some 0xABC ∧
    runSP c7state 0x00EE = some (-2) ∧
    (c7full.run_instr 0x2123).isNone = true := by
  refine ⟨by decide, by decide, by decide, by decide⟩

/-- The 35 documented table entries, transcribed from the spec's
instruction table (§4.1): `SE Vx, Vy` is exactly `5xy0` and
`SNE Vx, Vy` exactly `9xy0`, and the 8-group has exactly the nine
low-nibble selectors 0–7 and E. -/
def documentedInstr (w : Nat) : Bool :=
  let s := w >>> 12
  let n := w &&& 0xF
  let kk := w &&& 0xff
  (w == 0x00E0) || (w == 0x00EE) ||
  (s == 0x1) || (s == 0x2) || (s == 0x3) || (s == 0x4) ||
  ((s == 0x5) && (n == 0)) || (s == 0x6) || (s == 0x7) ||
  ((s == 0x8) && ((n == 0) || (n == 1) || (n == 2) || (n == 3) || (n == 4) ||
    (n == 5) || (n == 6) || (n == 7) || (n == 0xE))) ||
  ((s == 0x9) && (n == 0)) ||
  (s == 0xA) || (s == 0xB) || (s == 0xC) || (s == 0xD) ||
  ((s == 0xE) && ((kk == 0x9E) || (kk == 0xA1))) ||
  ((s == 0xF) && ((kk == 0x07) || (kk == 0x0A) || (kk == 0x15) ||
    (kk == 0x18) || (kk == 0x1E) || (kk == 0x29) || (kk == 0x33) ||
    (kk == 0x55) || (kk == 0x65)))

/-- Whether one loop iteration on `w` halts with the invalid-instruction
report. -/
def stepHalts (c : Chip8) (w : Nat) : Bool :=
  match c.step w with
  | StepResult.halt _ _ => true
  | _ => false

/-- Claim C6 counterexample: `0x5011` matches none of the 35 documented
entries (`SE Vx, Vy` is exactly `5xy0`), yet the code dispatches family
5 without checking the low nibble, executes it as `SE Vx, Vy`, and does
not halt. -/
theorem C6_invalid_counterexample :
    documentedInstr 0x5011 = false ∧
    runMnem Chip8.init 0x5011 = some (some "SE Vx, Vy") ∧
    stepHalts Chip8.init 0x5011 = false := by
  refine ⟨by decide, by decide, by decide⟩

set_option maxHeartbeats 4000000 in
/-- Claim C6 (amended: words `5xyn` / `9xyn` with `n ≠ 0` are excluded —
the code dispatches families 5 and 9 on the family nibble alone and
executes them as `SE Vx, Vy` / `SNE Vx, Vy`): every other word that
matches no documented table entry makes `run_instr` report the
invalid-instruction outcome with the machine state untouched, and the
run loop halts immediately. -/
theorem C6_invalid_amended (c : Chip8) (w : Nat) (hw : w < 65536)
    (hnd : documentedInstr w = false)
    (h5 : w >>> 12 ≠ 0x5) (h9 : w >>> 12 ≠ 0x9) :
    c.run_instr w = some (c, none) ∧ c.step w = StepResult.halt c w := by
  have hmain : c.run_instr w = some (c, none) := by
    simp only [documentedInstr, shr12_eq, and_mask4, and_mask8,
      Bool.or_eq_false_iff, Bool.and_eq_false_iff, beq_eq_false_iff_ne,
      ne_eq] at hnd
    rw [shr12_eq] at h5 h9
    obtain ⟨⟨⟨⟨⟨⟨⟨⟨⟨⟨⟨⟨⟨⟨⟨⟨hE0, hEE⟩, g1⟩, g2⟩, g3⟩, g4⟩, g5⟩, g6⟩, g7⟩,
      g8⟩, g9⟩, gA⟩, gB⟩, gC⟩, gD⟩, gE⟩, gF⟩ := hnd
    simp only [Chip8.run_instr]
    simp only [shr12_eq, shr8_eq, shr4_eq, and_mask4, and_mask8, and_mask12]
    have hs16 : w / 4096 = 0 ∨ w / 4096 = 1 ∨ w / 4096 = 2 ∨ w / 4096 = 3 ∨
        w / 4096 = 4 ∨ w / 4096 = 5 ∨ w / 4096 = 6 ∨ w / 4096 = 7 ∨
        w / 4096 = 8 ∨ w / 4096 = 9 ∨ w / 4096 = 10 ∨ w / 4096 = 11 ∨
        w / 4096 = 12 ∨ w / 4096 = 13 ∨ w / 4096 = 14 ∨ w / 4096 = 15 := by
      omega
    rcases hs16 with h|h|h|h|h|h|h|h|h|h|h|h|h|h|h|h
    · clear g5 g8 g9 gE gF
      simp only [h, Nat.reduceEqDiff, if_true, if_false]
      split_ifs <;> first | (exfalso; omega) | rfl
    · exact absurd h g1
    · exact absurd h g2
    · exact absurd h g3
    · exact absurd h g4
    · exact absurd h h5
    · exact absurd h g6
    · exact absurd h g7
    · clear g5 g9 gE gF hE0 hEE
      simp only [h, Nat.reduceEqDiff, if_true, if_false]
      split_ifs <;> first | (exfalso; omega) | rfl
    · exact absurd h h9
    · exact absurd h gA
    · exact absurd h gB
    · exact absurd h gC
    · exact absurd h gD
    · clear g5 g8 g9 gF hE0 hEE
      simp only [h, Nat.reduceEqDiff, if_true, if_false]
      split_ifs <;> first | (exfalso; omega) | rfl
    · clear g5 g8 g9 gE hE0 hEE
      simp only [h, Nat.reduceEqDiff, if_true, if_false]
      split_ifs <;> first | (exfalso; omega) | rfl
  exact ⟨hmain, by simp [Chip8.step, hmain]⟩

/-- Witness for C6_invalid_amended at `w = 0xFFFF` (an F-group miss). -/
theorem C6_invalid_amended_witness :
    ((0xFFFF : Nat) < 65536 ∧ documentedInstr 0xFFFF = false ∧
      0xFFFF >>> 12 ≠ 0x5 ∧ 0xFFFF >>> 12 ≠ 0x9) ∧
    Chip8.init.run_instr 0xFFFF = some (Chip8.init, none) ∧
    Chip8.init.step 0xFFFF = StepResult.halt Chip8.init 0xFFFF :=
  ⟨⟨by decide, by decide, by decide, by decide⟩,
    C6_invalid_amended Chip8.init 0xFFFF (by decide) (by decide) (by decide)
      (by decide)⟩

theorem push_timers {c : Chip8} {v : Nat} {c1 : Chip8} (h : c.push v = some c1) :
    c1.DT = c.DT ∧ c1.ST = c.ST := by
  simp only [Chip8.push, Option.map_eq_some'] at h
  obtain ⟨idx, _, rfl⟩ := h
  exact ⟨rfl, rfl⟩

/-- The stack pop leaves both timers unchanged. -/
theorem pop_timers {c : Chip8} {pr : Chip8 × Nat} (h : c.pop = some pr) :
    pr.1.DT = c.DT ∧ pr.1.ST = c.ST := by
  simp only [Chip8.pop, Option.map_eq_some'] at h
  obtain ⟨idx, _, rfl⟩ := h
  exact ⟨rfl, rfl⟩

/-- `RET` leaves both timers unchanged. -/
theorem RET_timers {c c1 : Chip8} (h : c.RET = some c1) :
    c1.DT = c.DT ∧ c1.ST = c.ST := by
  simp only [Chip8.RET, Option.map_eq_some'] at h
  obtain ⟨pr, hp, rfl⟩ := h
  exact ⟨(pop_timers hp).1, (pop_timers hp).2⟩

/-- `CALL` leaves both timers unchanged. -/
theorem CALL_timers {c c1 : Chip8} {nnn : Nat} (h : c.CALL nnn = some c1) :
    c1.DT = c.DT ∧ c1.ST = c.ST := by
  simp only [Chip8.CALL, Option.map_eq_some'] at h
  obtain ⟨c2, hp, rfl⟩ := h
  exact ⟨(push_timers hp).1, (push_timers hp).2⟩

/-- `JP` leaves both timers unchanged. -/
theorem JP_timers {c c1 : Chip8} {nnn m : Nat} (h : c.JP nnn m = some c1) :
    c1.DT = c.DT ∧ c1.ST = c.ST := by
  rcases m with _ | _ | m
  · simp only [Chip8.JP, Option.some.injEq] at h
    subst h; exact ⟨rfl, rfl⟩
  · simp only [Chip8.JP, Option.some.injEq] at h
    subst h; exact ⟨rfl, rfl⟩
  · exact Option.noConfusion h

/-- `SE` leaves both timers unchanged. -/
theorem SE_timers {c c1 : Chip8} {m a b : Nat} (h : c.SE m a b = some c1) :
    c1.DT = c.DT ∧ c1.ST = c.ST := by
  rcases m with _ | _ | m
  · simp only [Chip8.SE, Option.some.injEq] at h
    subst h; split <;> exact ⟨rfl, rfl⟩
  · simp only [Chip8.SE, Option.some.injEq] at h
    subst h; split <;> exact ⟨rfl, rfl⟩
  · exact Option.noConfusion h

/-- `SNE` leaves both timers unchanged. -/
theorem SNE_timers {c c1 : Chip8} {m a b : Nat} (h : c.SNE m a b = some c1) :
    c1.DT = c.DT ∧ c1.ST = c.ST := by
  rcases m with _ | _ | m
  · simp only [Chip8.SNE, Option.some.injEq] at h
    subst h; split <;> exact ⟨rfl, rfl⟩
  · simp only [Chip8.SNE, Option.some.injEq] at h
    subst h; split <;> exact ⟨rfl, rfl⟩
  · exact Option.noConfusion h

/-- `ADD` leaves both timers unchanged. -/
theorem ADD_timers {c c1 : Chip8} {m a b : Nat} (h : c.ADD m a b = some c1) :
    c1.DT = c.DT ∧ c1.ST = c.ST := by
  rcases m with _ | _ | _ | m
  · simp only [Chip8.ADD, Option.some.injEq] at h
    subst h; exact ⟨rfl, rfl⟩
  · simp only [Chip8.ADD, Option.some.injEq] at h
    subst h; exact ⟨rfl, rfl⟩
  · simp only [Chip8.ADD, Option.some.injEq] at h
    subst h; exact ⟨rfl, rfl⟩
  · exact Option.noConfusion h

/-- `SKP` leaves both timers unchanged. -/
theorem SKP_timers {c c1 : Chip8} {x : Nat} (h : c.SKP x = some c1) :
    c1.DT = c.DT ∧ c1.ST = c.ST := by
  simp only [Chip8.SKP] at h
  split_ifs at h <;>
    first
      | exact Option.noConfusion h
      | (simp only [Option.some.injEq] at h; subst h; exact ⟨rfl, rfl⟩)

/-- `SKNP` leaves both timers unchanged. -/
theorem SKNP_timers {c c1 : Chip8} {x : Nat} (h : c.SKNP x = some c1) :
    c1.DT = c.DT ∧ c1.ST = c.ST := by
  simp only [Chip8.SKNP] at h
  split_ifs at h <;>
    first
      | exact Option.noConfusion h
      | (simp only [Option.some.injEq] at h; subst h; exact ⟨rfl, rfl⟩)

/-- `DRW` leaves both timers unchanged. -/
theorem DRW_timers {c c1 : Chip8} {x y n : Nat} (h : c.DRW x y n = some c1) :
    c1.DT = c.DT ∧ c1.ST = c.ST := by
  simp only [Chip8.DRW] at h
  split_ifs at h <;>
    first
      | exact Option.noConfusion h
      | (simp only [Option.some.injEq] at h; subst h; exact ⟨rfl, rfl⟩)

/-- `LD` touches a timer only in mode 5 (`LD DT, Vx`) or mode 6
(`LD ST, Vx`), and then sets it from a register value. -/
theorem LD_timers {c c1 : Chip8} {m a b : Nat} (h : c.LD m a b = some c1) :
    (c1.DT = c.DT ∧ c1.ST = c.ST) ∨
    (m = 5 ∧ c1.DT = (c.V a : Int) ∧ c1.ST = c.ST) ∨
    (m = 6 ∧ c1.ST = (c.V a : Int) ∧ c1.DT = c.DT) := by
  rcases m with _ | _ | _ | _ | _ | _ | _ | _ | _ | _ | _ | m
  all_goals (try simp only [Chip8.LD] at h)
  all_goals (try split_ifs at h)
  all_goals
    first
      | exact Option.noConfusion h
      | (simp only [Option.some.injEq] at h
         subst h
         first
           | exact Or.inl ⟨rfl, rfl⟩
           | exact Or.inr (Or.inl ⟨rfl, rfl, rfl⟩)
           | exact Or.inr (Or.inr ⟨rfl, rfl, rfl⟩))

set_option maxHeartbeats 2000000 in
/-- Every instruction leaves the timers unchanged, except `LD DT, Vx`
and `LD ST, Vx` which set one of them from a register value. -/
theorem run_instr_timers (c : Chip8) (w : Nat) (p : Chip8 × Option String)
    (h : c.run_instr w = some p) :
    ((p.2 = some "LD DT, Vx" ∧ ∃ a, p.1.DT = (c.V a : Int)) ∨ p.1.DT = c.DT) ∧
    ((p.2 = some "LD ST, Vx" ∧ ∃ a, p.1.ST = (c.V a : Int)) ∨ p.1.ST = c.ST) := by
  simp only [Chip8.run_instr] at h
  have hs17 : w >>> 12 = 0 ∨
      w >>> 12 = 1 ∨
      w >>> 12 = 2 ∨
      w >>> 12 = 3 ∨
      w >>> 12 = 4 ∨
      w >>> 12 = 5 ∨
      w >>> 12 = 6 ∨
      w >>> 12 = 7 ∨
      w >>> 12 = 8 ∨
      w >>> 12 = 9 ∨
      w >>> 12 = 10 ∨
      w >>> 12 = 11 ∨
      w >>> 12 = 12 ∨
      w >>> 12 = 13 ∨
      w >>> 12 = 14 ∨
      w >>> 12 = 15 ∨
      16 ≤ w >>> 12 := by omega
  rcases hs17 with h'|h'|h'|h'|h'|h'|h'|h'|h'|h'|h'|h'|h'|h'|h'|h'|h'
  · simp only [h', Nat.reduceEqDiff, if_true, if_false] at h
    split_ifs at h <;>
      first
            | (simp only [Option.some.injEq] at h
               subst h
               exact ⟨Or.inr rfl, Or.inr rfl⟩)
            | (obtain ⟨c1, hop, rfl⟩ := Option.map_eq_some'.mp h
               first
                 | (exact ⟨Or.inr (RET_timers hop).1, Or.inr (RET_timers hop).2⟩)
                 | (exact ⟨Or.inr (CALL_timers hop).1, Or.inr (CALL_timers hop).2⟩)
                 | (exact ⟨Or.inr (JP_timers hop).1, Or.inr (JP_timers hop).2⟩)
                 | (exact ⟨Or.inr (SE_timers hop).1, Or.inr (SE_timers hop).2⟩)
                 | (exact ⟨Or.inr (SNE_timers hop).1, Or.inr (SNE_timers hop).2⟩)
                 | (exact ⟨Or.inr (ADD_timers hop).1, Or.inr (ADD_timers hop).2⟩)
                 | (exact ⟨Or.inr (SKP_timers hop).1, Or.inr (SKP_timers hop).2⟩)
                 | (exact ⟨Or.inr (SKNP_timers hop).1, Or.inr (SKNP_timers hop).2⟩)
                 | (exact ⟨Or.inr (DRW_timers hop).1, Or.inr (DRW_timers hop).2⟩)
                 | (rcases LD_timers hop with ⟨h1, h2⟩ | ⟨hm, h1, h2⟩ | ⟨hm, h1, h2⟩
                    · exact ⟨Or.inr h1, Or.inr h2⟩
                    · first
                        | exact absurd hm (by decide)
                        | exact ⟨Or.inl ⟨rfl, _, h1⟩, Or.inr h2⟩
                    · first
                        | exact absurd hm (by decide)
                        | exact ⟨Or.inr h2, Or.inl ⟨rfl, _, h1⟩⟩))
  · simp only [h', Nat.reduceEqDiff, if_true, if_false] at h
    first
          | (simp only [Option.some.injEq] at h
             subst h
             exact ⟨Or.inr rfl, Or.inr rfl⟩)
          | (obtain ⟨c1, hop, rfl⟩ := Option.map_eq_some'.mp h
             first
               | (exact ⟨Or.inr (RET_timers hop).1, Or.inr (RET_timers hop).2⟩)
               | (exact ⟨Or.inr (CALL_timers hop).1, Or.inr (CALL_timers hop).2⟩)
               | (exact ⟨Or.inr (JP_timers hop).1, Or.inr (JP_timers hop).2⟩)
               | (exact ⟨Or.inr (SE_timers hop).1, Or.inr (SE_timers hop).2⟩)
               | (exact ⟨Or.inr (SNE_timers hop).1, Or.inr (SNE_timers hop).2⟩)
               | (exact ⟨Or.inr (ADD_timers hop).1, Or.inr (ADD_timers hop).2⟩)
               | (exact ⟨Or.inr (SKP_timers hop).1, Or.inr (SKP_timers hop).2⟩)
               | (exact ⟨Or.inr (SKNP_timers hop).1, Or.inr (SKNP_timers hop).2⟩)
               | (exact ⟨Or.inr (DRW_timers hop).1, Or.inr (DRW_timers hop).2⟩)
               | (rcases LD_timers hop with ⟨h1, h2⟩ | ⟨hm, h1, h2⟩ | ⟨hm, h1, h2⟩
                  · exact ⟨Or.inr h1, Or.inr h2⟩
                  · first
                      | exact absurd hm (by decide)
                      | exact ⟨Or.inl ⟨rfl, _, h1⟩, Or.inr h2⟩
                  · first
                      | exact absurd hm (by decide)
                      | exact ⟨Or.inr h2, Or.inl ⟨rfl, _, h1⟩⟩))
  · simp only [h', Nat.reduceEqDiff, if_true, if_false] at h
    first
          | (simp only [Option.some.injEq] at h
             subst h
             exact ⟨Or.inr rfl, Or.inr rfl⟩)
          | (obtain ⟨c1, hop, rfl⟩ := Option.map_eq_some'.mp h
             first
               | (exact ⟨Or.inr (RET_timers hop).1, Or.inr (RET_timers hop).2⟩)
               | (exact ⟨Or.inr (CALL_timers hop).1, Or.inr (CALL_timers hop).2⟩)
               | (exact ⟨Or.inr (JP_timers hop).1, Or.inr (JP_timers hop).2⟩)
               | (exact ⟨Or.inr (SE_timers hop).1, Or.inr (SE_timers hop).2⟩)
               | (exact ⟨Or.inr (SNE_timers hop).1, Or.inr (SNE_timers hop).2⟩)
               | (exact ⟨Or.inr (ADD_timers hop).1, Or.inr (ADD_timers hop).2⟩)
               | (exact ⟨Or.inr (SKP_timers hop).1, Or.inr (SKP_timers hop).2⟩)
               | (exact ⟨Or.inr (SKNP_timers hop).1, Or.inr (SKNP_timers hop).2⟩)
               | (exact ⟨Or.inr (DRW_timers hop).1, Or.inr (DRW_timers hop).2⟩)
               | (rcases LD_timers hop with ⟨h1, h2⟩ | ⟨hm, h1, h2⟩ | ⟨hm, h1, h2⟩
                  · exact ⟨Or.inr h1, Or.inr h2⟩
                  · first
                      | exact absurd hm (by decide)
                      | exact ⟨Or.inl ⟨rfl, _, h1⟩, Or.inr h2⟩
                  · first
                      | exact absurd hm (by decide)
                      | exact ⟨Or.inr h2, Or.inl ⟨rfl, _, h1⟩⟩))
  · simp only [h', Nat.reduceEqDiff, if_true, if_false] at h
    first
          | (simp only [Option.some.injEq] at h
             subst h
             exact ⟨Or.inr rfl, Or.inr rfl⟩)
          | (obtain ⟨c1, hop, rfl⟩ := Option.map_eq_some'.mp h
             first
               | (exact ⟨Or.inr (RET_timers hop).1, Or.inr (RET_timers hop).2⟩)
               | (exact ⟨Or.inr (CALL_timers hop).1, Or.inr (CALL_timers hop).2⟩)
               | (exact ⟨Or.inr (JP_timers hop).1, Or.inr (JP_timers hop).2⟩)
               | (exact ⟨Or.inr (SE_timers hop).1, Or.inr (SE_timers hop).2⟩)
               | (exact ⟨Or.inr (SNE_timers hop).1, Or.inr (SNE_timers hop).2⟩)
               | (exact ⟨Or.inr (ADD_timers hop).1, Or.inr (ADD_timers hop).2⟩)
               | (exact ⟨Or.inr (SKP_timers hop).1, Or.inr (SKP_timers hop).2⟩)
               | (exact ⟨Or.inr (SKNP_timers hop).1, Or.inr (SKNP_timers hop).2⟩)
               | (exact ⟨Or.inr (DRW_timers hop).1, Or.inr (DRW_timers hop).2⟩)
               | (rcases LD_timers hop with ⟨h1, h2⟩ | ⟨hm, h1, h2⟩ | ⟨hm, h1, h2⟩
                  · exact ⟨Or.inr h1, Or.inr h2⟩
                  · first
                      | exact absurd hm (by decide)
                      | exact ⟨Or.inl ⟨rfl, _, h1⟩, Or.inr h2⟩
                  · first
                      | exact absurd hm (by decide)
                      | exact ⟨Or.inr h2, Or.inl ⟨rfl, _, h1⟩⟩))
  · simp only [h', Nat.reduceEqDiff, if_true, if_false] at h
    first
          | (simp only [Option.some.injEq] at h
             subst h
             exact ⟨Or.inr rfl, Or.inr rfl⟩)
          | (obtain ⟨c1, hop, rfl⟩ := Option.map_eq_some'.mp h
             first
               | (exact ⟨Or.inr (RET_timers hop).1, Or.inr (RET_timers hop).2⟩)
               | (exact ⟨Or.inr (CALL_timers hop).1, Or.inr (CALL_timers hop).2⟩)
               | (exact ⟨Or.inr (JP_timers hop).1, Or.inr (JP_timers hop).2⟩)
               | (exact ⟨Or.inr (SE_timers hop).1, Or.inr (SE_timers hop).2⟩)
               | (exact ⟨Or.inr (SNE_timers hop).1, Or.inr (SNE_timers hop).2⟩)
               | (exact ⟨Or.inr (ADD_timers hop).1, Or.inr (ADD_timers hop).2⟩)
               | (exact ⟨Or.inr (SKP_timers hop).1, Or.inr (SKP_timers hop).2⟩)
               | (exact ⟨Or.inr (SKNP_timers hop).1, Or.inr (SKNP_timers hop).2⟩)
               | (exact ⟨Or.inr (DRW_timers hop).1, Or.inr (DRW_timers hop).2⟩)
               | (rcases LD_timers hop with ⟨h1, h2⟩ | ⟨hm, h1, h2⟩ | ⟨hm, h1, h2⟩
                  · exact ⟨Or.inr h1, Or.inr h2⟩
                  · first
                      | exact absurd hm (by decide)
                      | exact ⟨Or.inl ⟨rfl, _, h1⟩, Or.inr h2⟩
                  · first
                      | exact absurd hm (by decide)
                      | exact ⟨Or.inr h2, Or.inl ⟨rfl, _, h1⟩⟩))
  · simp only [h', Nat.reduceEqDiff, if_true, if_false] at h
    first
          | (simp only [Option.some.injEq] at h
             subst h
             exact ⟨Or.inr rfl, Or.inr rfl⟩)
          | (obtain ⟨c1, hop, rfl⟩ := Option.map_eq_some'.mp h
             first
               | (exact ⟨Or.inr (RET_timers hop).1, Or.inr (RET_timers hop).2⟩)
               | (exact ⟨Or.inr (CALL_timers hop).1, Or.inr (CALL_timers hop).2⟩)
               | (exact ⟨Or.inr (JP_timers hop).1, Or.inr (JP_timers hop).2⟩)
               | (exact ⟨Or.inr (SE_timers hop).1, Or.inr (SE_timers hop).2⟩)
               | (exact ⟨Or.inr (SNE_timers hop).1, Or.inr (SNE_timers hop).2⟩)
               | (exact ⟨Or.inr (ADD_timers hop).1, Or.inr (ADD_timers hop).2⟩)
               | (exact ⟨Or.inr (SKP_timers hop).1, Or.inr (SKP_timers hop).2⟩)
               | (exact ⟨Or.inr (SKNP_timers hop).1, Or.inr (SKNP_timers hop).2⟩)
               | (exact ⟨Or.inr (DRW_timers hop).1, Or.inr (DRW_timers hop).2⟩)
               | (rcases LD_timers hop with ⟨h1, h2⟩ | ⟨hm, h1, h2⟩ | ⟨hm, h1, h2⟩
                  · exact ⟨Or.inr h1, Or.inr h2⟩
                  · first
                      | exact absurd hm (by decide)
                      | exact ⟨Or.inl ⟨rfl, _, h1⟩, Or.inr h2⟩
                  · first
                      | exact absurd hm (by decide)
                      | exact ⟨Or.inr h2, Or.inl ⟨rfl, _, h1⟩⟩))
  · simp only [h', Nat.reduceEqDiff, if_true, if_false] at h
    first
          | (simp only [Option.some.injEq] at h
             subst h
             exact ⟨Or.inr rfl, Or.inr rfl⟩)
          | (obtain ⟨c1, hop, rfl⟩ := Option.map_eq_some'.mp h
             first
               | (exact ⟨Or.inr (RET_timers hop).1, Or.inr (RET_timers hop).2⟩)
               | (exact ⟨Or.inr (CALL_timers hop).1, Or.inr (CALL_timers hop).2⟩)
               | (exact ⟨Or.inr (JP_timers hop).1, Or.inr (JP_timers hop).2⟩)
               | (exact ⟨Or.inr (SE_timers hop).1, Or.inr (SE_timers hop).2⟩)
               | (exact ⟨Or.inr (SNE_timers hop).1, Or.inr (SNE_timers hop).2⟩)
               | (exact ⟨Or.inr (ADD_timers hop).1, Or.inr (ADD_timers hop).2⟩)
               | (exact ⟨Or.inr (SKP_timers hop).1, Or.inr (SKP_timers hop).2⟩)
               | (exact ⟨Or.inr (SKNP_timers hop).1, Or.inr (SKNP_timers hop).2⟩)
               | (exact ⟨Or.inr (DRW_timers hop).1, Or.inr (DRW_timers hop).2⟩)
               | (rcases LD_timers hop with ⟨h1, h2⟩ | ⟨hm, h1, h2⟩ | ⟨hm, h1, h2⟩
                  · exact ⟨Or.inr h1, Or.inr h2⟩
                  · first
                      | exact absurd hm (by decide)
                      | exact ⟨Or.inl ⟨rfl, _, h1⟩, Or.inr h2⟩
                  · first
                      | exact absurd hm (by decide)
                      | exact ⟨Or.inr h2, Or.inl ⟨rfl, _, h1⟩⟩))
  · simp only [h', Nat.reduceEqDiff, if_true, if_false] at h
    first
          | (simp only [Option.some.injEq] at h
             subst h
             exact ⟨Or.inr rfl, Or.inr rfl⟩)
          | (obtain ⟨c1, hop, rfl⟩ := Option.map_eq_some'.mp h
             first
               | (exact ⟨Or.inr (RET_timers hop).1, Or.inr (RET_timers hop).2⟩)
               | (exact ⟨Or.inr (CALL_timers hop).1, Or.inr (CALL_timers hop).2⟩)
               | (exact ⟨Or.inr (JP_timers hop).1, Or.inr (JP_timers hop).2⟩)
               | (exact ⟨Or.inr (SE_timers hop).1, Or.inr (SE_timers hop).2⟩)
               | (exact ⟨Or.inr (SNE_timers hop).1, Or.inr (SNE_timers hop).2⟩)
               | (exact ⟨Or.inr (ADD_timers hop).1, Or.inr (ADD_timers hop).2⟩)
               | (exact ⟨Or.inr (SKP_timers hop).1, Or.inr (SKP_timers hop).2⟩)
               | (exact ⟨Or.inr (SKNP_timers hop).1, Or.inr (SKNP_timers hop).2⟩)
               | (exact ⟨Or.inr (DRW_timers hop).1, Or.inr (DRW_timers hop).2⟩)
               | (rcases LD_timers hop with ⟨h1, h2⟩ | ⟨hm, h1, h2⟩ | ⟨hm, h1, h2⟩
                  · exact ⟨Or.inr h1, Or.inr h2⟩
                  · first
                      | exact absurd hm (by decide)
                      | exact ⟨Or.inl ⟨rfl, _, h1⟩, Or.inr h2⟩
                  · first
                      | exact absurd hm (by decide)
                      | exact ⟨Or.inr h2, Or.inl ⟨rfl, _, h1⟩⟩))
  · simp only [h', Nat.reduceEqDiff, if_true, if_false] at h
    split_ifs at h <;>
      first
            | (simp only [Option.some.injEq] at h
               subst h
               exact ⟨Or.inr rfl, Or.inr rfl⟩)
            | (obtain ⟨c1, hop, rfl⟩ := Option.map_eq_some'.mp h
               first
                 | (exact ⟨Or.inr (RET_timers hop).1, Or.inr (RET_timers hop).2⟩)
                 | (exact ⟨Or.inr (CALL_timers hop).1, Or.inr (CALL_timers hop).2⟩)
                 | (exact ⟨Or.inr (JP_timers hop).1, Or.inr (JP_timers hop).2⟩)
                 | (exact ⟨Or.inr (SE_timers hop).1, Or.inr (SE_timers hop).2⟩)
                 | (exact ⟨Or.inr (SNE_timers hop).1, Or.inr (SNE_timers hop).2⟩)
                 | (exact ⟨Or.inr (ADD_timers hop).1, Or.inr (ADD_timers hop).2⟩)
                 | (exact ⟨Or.inr (SKP_timers hop).1, Or.inr (SKP_timers hop).2⟩)
                 | (exact ⟨Or.inr (SKNP_timers hop).1, Or.inr (SKNP_timers hop).2⟩)
                 | (exact ⟨Or.inr (DRW_timers hop).1, Or.inr (DRW_timers hop).2⟩)
                 | (rcases LD_timers hop with ⟨h1, h2⟩ | ⟨hm, h1, h2⟩ | ⟨hm, h1, h2⟩
                    · exact ⟨Or.inr h1, Or.inr h2⟩
                    · first
                        | exact absurd hm (by decide)
                        | exact ⟨Or.inl ⟨rfl, _, h1⟩, Or.inr h2⟩
                    · first
                        | exact absurd hm (by decide)
                        | exact ⟨Or.inr h2, Or.inl ⟨rfl, _, h1⟩⟩))
  · simp only [h', Nat.reduceEqDiff, if_true, if_false] at h
    first
          | (simp only [Option.some.injEq] at h
             subst h
             exact ⟨Or.inr rfl, Or.inr rfl⟩)
          | (obtain ⟨c1, hop, rfl⟩ := Option.map_eq_some'.mp h
             first
               | (exact ⟨Or.inr (RET_timers hop).1, Or.inr (RET_timers hop).2⟩)
               | (exact ⟨Or.inr (CALL_timers hop).1, Or.inr (CALL_timers hop).2⟩)
               | (exact ⟨Or.inr (JP_timers hop).1, Or.inr (JP_timers hop).2⟩)
               | (exact ⟨Or.inr (SE_timers hop).1, Or.inr (SE_timers hop).2⟩)
               | (exact ⟨Or.inr (SNE_timers hop).1, Or.inr (SNE_timers hop).2⟩)
               | (exact ⟨Or.inr (ADD_timers hop).1, Or.inr (ADD_timers hop).2⟩)
               | (exact ⟨Or.inr (SKP_timers hop).1, Or.inr (SKP_timers hop).2⟩)
               | (exact ⟨Or.inr (SKNP_timers hop).1, Or.inr (SKNP_timers hop).2⟩)
               | (exact ⟨Or.inr (DRW_timers hop).1, Or.inr (DRW_timers hop).2⟩)
               | (rcases LD_timers hop with ⟨h1, h2⟩ | ⟨hm, h1, h2⟩ | ⟨hm, h1, h2⟩
                  · exact ⟨Or.inr h1, Or.inr h2⟩
                  · first
                      | exact absurd hm (by decide)
                      | exact ⟨Or.inl ⟨rfl, _, h1⟩, Or.inr h2⟩
                  · first
                      | exact absurd hm (by decide)
                      | exact ⟨Or.inr h2, Or.inl ⟨rfl, _, h1⟩⟩))
  · simp only [h', Nat.reduceEqDiff, if_true, if_false] at h
    first
          | (simp only [Option.some.injEq] at h
             subst h
             exact ⟨Or.inr rfl, Or.inr rfl⟩)
          | (obtain ⟨c1, hop, rfl⟩ := Option.map_eq_some'.mp h
             first
               | (exact ⟨Or.inr (RET_timers hop).1, Or.inr (RET_timers hop).2⟩)
               | (exact ⟨Or.inr (CALL_timers hop).1, Or.inr (CALL_timers hop).2⟩)
               | (exact ⟨Or.inr (JP_timers hop).1, Or.inr (JP_timers hop).2⟩)
               | (exact ⟨Or.inr (SE_timers hop).1, Or.inr (SE_timers hop).2⟩)
               | (exact ⟨Or.inr (SNE_timers hop).1, Or.inr (SNE_timers hop).2⟩)
               | (exact ⟨Or.inr (ADD_timers hop).1, Or.inr (ADD_timers hop).2⟩)
               | (exact ⟨Or.inr (SKP_timers hop).1, Or.inr (SKP_timers hop).2⟩)
               | (exact ⟨Or.inr (SKNP_timers hop).1, Or.inr (SKNP_timers hop).2⟩)
               | (exact ⟨Or.inr (DRW_timers hop).1, Or.inr (DRW_timers hop).2⟩)
               | (rcases LD_timers hop with ⟨h1, h2⟩ | ⟨hm, h1, h2⟩ | ⟨hm, h1, h2⟩
                  · exact ⟨Or.inr h1, Or.inr h2⟩
                  · first
                      | exact absurd hm (by decide)
                      | exact ⟨Or.inl ⟨rfl, _, h1⟩, Or.inr h2⟩
                  · first
                      | exact absurd hm (by decide)
                      | exact ⟨Or.inr h2, Or.inl ⟨rfl, _, h1⟩⟩))
  · simp only [h', Nat.reduceEqDiff, if_true, if_false] at h
    first
          | (simp only [Option.some.injEq] at h
             subst h
             exact ⟨Or.inr rfl, Or.inr rfl⟩)
          | (obtain ⟨c1, hop, rfl⟩ := Option.map_eq_some'.mp h
             first
               | (exact ⟨Or.inr (RET_timers hop).1, Or.inr (RET_timers hop).2⟩)
               | (exact ⟨Or.inr (CALL_timers hop).1, Or.inr (CALL_timers hop).2⟩)
               | (exact ⟨Or.inr (JP_timers hop).1, Or.inr (JP_timers hop).2⟩)
               | (exact ⟨Or.inr (SE_timers hop).1, Or.inr (SE_timers hop).2⟩)
               | (exact ⟨Or.inr (SNE_timers hop).1, Or.inr (SNE_timers hop).2⟩)
               | (exact ⟨Or.inr (ADD_timers hop).1, Or.inr (ADD_timers hop).2⟩)
               | (exact ⟨Or.inr (SKP_timers hop).1, Or.inr (SKP_timers hop).2⟩)
               | (exact ⟨Or.inr (SKNP_timers hop).1, Or.inr (SKNP_timers hop).2⟩)
               | (exact ⟨Or.inr (DRW_timers hop).1, Or.inr (DRW_timers hop).2⟩)
               | (rcases LD_timers hop with ⟨h1, h2⟩ | ⟨hm, h1, h2⟩ | ⟨hm, h1, h2⟩
                  · exact ⟨Or.inr h1, Or.inr h2⟩
                  · first
                      | exact absurd hm (by decide)
                      | exact ⟨Or.inl ⟨rfl, _, h1⟩, Or.inr h2⟩
                  · first
                      | exact absurd hm (by decide)
                      | exact ⟨Or.inr h2, Or.inl ⟨rfl, _, h1⟩⟩))
  · simp only [h', Nat.reduceEqDiff, if_true, if_false] at h
    first
          | (simp only [Option.some.injEq] at h
             subst h
             exact ⟨Or.inr rfl, Or.inr rfl⟩)
          | (obtain ⟨c1, hop, rfl⟩ := Option.map_eq_some'.mp h
             first
               | (exact ⟨Or.inr (RET_timers hop).1, Or.inr (RET_timers hop).2⟩)
               | (exact ⟨Or.inr (CALL_timers hop).1, Or.inr (CALL_timers hop).2⟩)
               | (exact ⟨Or.inr (JP_timers hop).1, Or.inr (JP_timers hop).2⟩)
               | (exact ⟨Or.inr (SE_timers hop).1, Or.inr (SE_timers hop).2⟩)
               | (exact ⟨Or.inr (SNE_timers hop).1, Or.inr (SNE_timers hop).2⟩)
               | (exact ⟨Or.inr (ADD_timers hop).1, Or.inr (ADD_timers hop).2⟩)
               | (exact ⟨Or.inr (SKP_timers hop).1, Or.inr (SKP_timers hop).2⟩)
               | (exact ⟨Or.inr (SKNP_timers hop).1, Or.inr (SKNP_timers hop).2⟩)
               | (exact ⟨Or.inr (DRW_timers hop).1, Or.inr (DRW_timers hop).2⟩)
               | (rcases LD_timers hop with ⟨h1, h2⟩ | ⟨hm, h1, h2⟩ | ⟨hm, h1, h2⟩
                  · exact ⟨Or.inr h1, Or.inr h2⟩
                  · first
                      | exact absurd hm (by decide)
                      | exact ⟨Or.inl ⟨rfl, _, h1⟩, Or.inr h2⟩
                  · first
                      | exact absurd hm (by decide)
                      | exact ⟨Or.inr h2, Or.inl ⟨rfl, _, h1⟩⟩))
  · simp only [h', Nat.reduceEqDiff, if_true, if_false] at h
    first
          | (simp only [Option.some.injEq] at h
             subst h
             exact ⟨Or.inr rfl, Or.inr rfl⟩)
          | (obtain ⟨c1, hop, rfl⟩ := Option.map_eq_some'.mp h
             first
               | (exact ⟨Or.inr (RET_timers hop).1, Or.inr (RET_timers hop).2⟩)
               | (exact ⟨Or.inr (CALL_timers hop).1, Or.inr (CALL_timers hop).2⟩)
               | (exact ⟨Or.inr (JP_timers hop).1, Or.inr (JP_timers hop).2⟩)
               | (exact ⟨Or.inr (SE_timers hop).1, Or.inr (SE_timers hop).2⟩)
               | (exact ⟨Or.inr (SNE_timers hop).1, Or.inr (SNE_timers hop).2⟩)
               | (exact ⟨Or.inr (ADD_timers hop).1, Or.inr (ADD_timers hop).2⟩)
               | (exact ⟨Or.inr (SKP_timers hop).1, Or.inr (SKP_timers hop).2⟩)
               | (exact ⟨Or.inr (SKNP_timers hop).1, Or.inr (SKNP_timers hop).2⟩)
               | (exact ⟨Or.inr (DRW_timers hop).1, Or.inr (DRW_timers hop).2⟩)
               | (rcases LD_timers hop with ⟨h1, h2⟩ | ⟨hm, h1, h2⟩ | ⟨hm, h1, h2⟩
                  · exact ⟨Or.inr h1, Or.inr h2⟩
                  · first
                      | exact absurd hm (by decide)
                      | exact ⟨Or.inl ⟨rfl, _, h1⟩, Or.inr h2⟩
                  · first
                      | exact absurd hm (by decide)
                      | exact ⟨Or.inr h2, Or.inl ⟨rfl, _, h1⟩⟩))
  · simp only [h', Nat.reduceEqDiff, if_true, if_false] at h
    split_ifs at h <;>
      first
            | (simp only [Option.some.injEq] at h
               subst h
               exact ⟨Or.inr rfl, Or.inr rfl⟩)
            | (obtain ⟨c1, hop, rfl⟩ := Option.map_eq_some'.mp h
               first
                 | (exact ⟨Or.inr (RET_timers hop).1, Or.inr (RET_timers hop).2⟩)
                 | (exact ⟨Or.inr (CALL_timers hop).1, Or.inr (CALL_timers hop).2⟩)
                 | (exact ⟨Or.inr (JP_timers hop).1, Or.inr (JP_timers hop).2⟩)
                 | (exact ⟨Or.inr (SE_timers hop).1, Or.inr (SE_timers hop).2⟩)
                 | (exact ⟨Or.inr (SNE_timers hop).1, Or.inr (SNE_timers hop).2⟩)
                 | (exact ⟨Or.inr (ADD_timers hop).1, Or.inr (ADD_timers hop).2⟩)
                 | (exact ⟨Or.inr (SKP_timers hop).1, Or.inr (SKP_timers hop).2⟩)
                 | (exact ⟨Or.inr (SKNP_timers hop).1, Or.inr (SKNP_timers hop).2⟩)
                 | (exact ⟨Or.inr (DRW_timers hop).1, Or.inr (DRW_timers hop).2⟩)
                 | (rcases LD_timers hop with ⟨h1, h2⟩ | ⟨hm, h1, h2⟩ | ⟨hm, h1, h2⟩
                    · exact ⟨Or.inr h1, Or.inr h2⟩
                    · first
                        | exact absurd hm (by decide)
                        | exact ⟨Or.inl ⟨rfl, _, h1⟩, Or.inr h2⟩
                    · first
                        | exact absurd hm (by decide)
                        | exact ⟨Or.inr h2, Or.inl ⟨rfl, _, h1⟩⟩))
  · simp only [h', Nat.reduceEqDiff, if_true, if_false] at h
    split_ifs at h <;>
      first
            | (simp only [Option.some.injEq] at h
               subst h
               exact ⟨Or.inr rfl, Or.inr rfl⟩)
            | (obtain ⟨c1, hop, rfl⟩ := Option.map_eq_some'.mp h
               first
                 | (exact ⟨Or.inr (RET_timers hop).1, Or.inr (RET_timers hop).2⟩)
                 | (exact ⟨Or.inr (CALL_timers hop).1, Or.inr (CALL_timers hop).2⟩)
                 | (exact ⟨Or.inr (JP_timers hop).1, Or.inr (JP_timers hop).2⟩)
                 | (exact ⟨Or.inr (SE_timers hop).1, Or.inr (SE_timers hop).2⟩)
                 | (exact ⟨Or.inr (SNE_timers hop).1, Or.inr (SNE_timers hop).2⟩)
                 | (exact ⟨Or.inr (ADD_timers hop).1, Or.inr (ADD_timers hop).2⟩)
                 | (exact ⟨Or.inr (SKP_timers hop).1, Or.inr (SKP_timers hop).2⟩)
                 | (exact ⟨Or.inr (SKNP_timers hop).1, Or.inr (SKNP_timers hop).2⟩)
                 | (exact ⟨Or.inr (DRW_timers hop).1, Or.inr (DRW_timers hop).2⟩)
                 | (rcases LD_timers hop with ⟨h1, h2⟩ | ⟨hm, h1, h2⟩ | ⟨hm, h1, h2⟩
                    · exact ⟨Or.inr h1, Or.inr h2⟩
                    · first
                        | exact absurd hm (by decide)
                        | exact ⟨Or.inl ⟨rfl, _, h1⟩, Or.inr h2⟩
                    · first
                        | exact absurd hm (by decide)
                        | exact ⟨Or.inr h2, Or.inl ⟨rfl, _, h1⟩⟩))
  · rw [if_neg (by omega : ¬(w >>> 12 = 0)), if_neg (by omega : ¬(w >>> 12 = 1)), if_neg (by omega : ¬(w >>> 12 = 2)), if_neg (by omega : ¬(w >>> 12 = 3)), if_neg (by omega : ¬(w >>> 12 = 4)), if_neg (by omega : ¬(w >>> 12 = 5)), if_neg (by omega : ¬(w >>> 12 = 6)), if_neg (by omega : ¬(w >>> 12 = 7)), if_neg (by omega : ¬(w >>> 12 = 8)), if_neg (by omega : ¬(w >>> 12 = 9)), if_neg (by omega : ¬(w >>> 12 = 10)), if_neg (by omega : ¬(w >>> 12 = 11)), if_neg (by omega : ¬(w >>> 12 = 12)), if_neg (by omega : ¬(w >>> 12 = 13)), if_neg (by omega : ¬(w >>> 12 = 14)), if_neg (by omega : ¬(w >>> 12 = 15))] at h
    simp only [Option.some.injEq] at h
    subst h
    exact ⟨Or.inr rfl, Or.inr rfl⟩

/-- The delay-timer effect of one tick. -/
theorem tick_DT (c : Chip8) : c.tick.DT = if c.DT > 0 then c.DT - 1 else c.DT := by
  simp only [Chip8.tick]
  split_ifs <;> simp_all

/-- The sound-timer effect of one tick. -/
theorem tick_ST (c : Chip8) : c.tick.ST = if c.ST > 0 then c.ST - 1 else c.ST := by
  simp only [Chip8.tick]
  split_ifs <;> simp_all

/-- After enough ticks both timers are exactly 0 (and stay 0, since the
bound holds for every larger iteration count as well). -/
theorem tick_iter_zero (c : Chip8) (m : Nat) (hD : 0 ≤ c.DT) (hS : 0 ≤ c.ST)
    (hmD : c.DT.toNat ≤ m) (hmS : c.ST.toNat ≤ m) :
    (Chip8.tick^[m] c).DT = 0 ∧ (Chip8.tick^[m] c).ST = 0 := by
  induction m generalizing c with
  | zero =>
    simp only [Function.iterate_zero, id_eq]
    constructor <;> omega
  | succ k ih =>
    rw [Function.iterate_succ_apply]
    apply ih
    · rw [tick_DT]; split_ifs <;> omega
    · rw [tick_ST]; split_ifs <;> omega
    · rw [tick_DT]; split_ifs <;> omega
    · rw [tick_ST]; split_ifs <;> omega

/-- Both timers are nonnegative in every reachable state. -/
theorem reachable_timers_nonneg (c : Chip8) (hr : Reachable c) :
    0 ≤ c.DT ∧ 0 ≤ c.ST := by
  induction hr with
  | base => exact ⟨le_refl 0, le_refl 0⟩
  | step c c' w hr hstep ih =>
    unfold Chip8.step at hstep
    rcases hri : c.run_instr w with _ | ⟨c1, _ | m⟩ <;> rw [hri] at hstep
    · exact absurd hstep (by simp)
    · exact absurd hstep (by simp)
    · have ht := run_instr_timers c w (c1, some m) hri
      have hDT : 0 ≤ c1.DT := by
        rcases ht.1 with ⟨_, a, ha⟩ | heq
        · rw [ha]; exact Int.natCast_nonneg _
        · rw [heq]; exact ih.1
      have hST : 0 ≤ c1.ST := by
        rcases ht.2 with ⟨_, a, ha⟩ | heq
        · rw [ha]; exact Int.natCast_nonneg _
        · rw [heq]; exact ih.2
      dsimp only at hstep
      split_ifs at hstep <;> (injection hstep with h; subst h) <;>
        exact ⟨hDT, hST⟩
  | tick c hr ih =>
    constructor
    · rw [tick_DT]; split_ifs <;> omega
    · rw [tick_ST]; split_ifs <;> omega

/-- State with `DT = 2, ST = 1` for the C9 witness. -/
def c9wit : Chip8 := { Chip8.init with DT := 2, ST := 1 }

/-- Claim C9: in every reachable state both timers are at least 0; a
timer tick decrements a timer by exactly 1 only when it is strictly
positive; after sufficiently many ticks both timers reach 0 and stay
there; and no instruction other than `LD DT, Vx` / `LD ST, Vx` rewrites
a timer — those two set it from `V[x]` (a byte, hence nonnegative). -/
theorem C9_timers :
    (∀ c : Chip8, Reachable c → 0 ≤ c.DT ∧ 0 ≤ c.ST) ∧
    (∀ c : Chip8, (c.DT > 0 → c.tick.DT = c.DT - 1) ∧
      (c.DT ≤ 0 → c.tick.DT = c.DT) ∧
      (c.ST > 0 → c.tick.ST = c.ST - 1) ∧ (c.ST ≤ 0 → c.tick.ST = c.ST)) ∧
    (∀ (c : Chip8) (m : Nat), 0 ≤ c.DT → 0 ≤ c.ST →
      c.DT.toNat ≤ m → c.ST.toNat ≤ m →
      (Chip8.tick^[m] c).DT = 0 ∧ (Chip8.tick^[m] c).ST = 0) ∧
    (∀ (c : Chip8) (w : Nat) (c1 : Chip8) (mn : Option String),
      c.run_instr w = some (c1, mn) →
      (mn ≠ some "LD DT, Vx" → c1.DT = c.DT) ∧
      (mn ≠ some "LD ST, Vx" → c1.ST = c.ST)) ∧
    (∀ (c : Chip8) (x : Nat), x < 16 →
      runState c (0xF000 + x * 256 + 0x15) = some { c with DT := (c.V x : Int) } ∧
      runState c (0xF000 + x * 256 + 0x18) = some { c with ST := (c.V x : Int) }) := by
  refine ⟨reachable_timers_nonneg, ?_, tick_iter_zero, ?_, ?_⟩
  · intro c
    refine ⟨?_, ?_, ?_, ?_⟩ <;> intro hc
    · rw [tick_DT, if_pos hc]
    · rw [tick_DT, if_neg (by omega)]
    · rw [tick_ST, if_pos hc]
    · rw [tick_ST, if_neg (by omega)]
  · intro c w c1 mn h
    have ht := run_instr_timers c w (c1, mn) h
    constructor
    · intro hne
      rcases ht.1 with ⟨he, _⟩ | heq
      · exact absurd he hne
      · exact heq
    · intro hne
      rcases ht.2 with ⟨he, _⟩ | heq
      · exact absurd he hne
      · exact heq
  · intro c x hx
    have ha : (0xF000 + x * 256 + 0x15) / 4096 = 0xF := by omega
    have hb : (0xF000 + x * 256 + 0x15) % 256 = 0x15 := by omega
    have hc2 : (0xF000 + x * 256 + 0x15) / 256 % 16 = x := by omega
    have hd : (0xF000 + x * 256 + 0x18) / 4096 = 0xF := by omega
    have he : (0xF000 + x * 256 + 0x18) % 256 = 0x18 := by omega
    have hf : (0xF000 + x * 256 + 0x18) / 256 % 16 = x := by omega
    constructor
    · simp only [runState, Chip8.run_instr, shr12_eq, shr8_eq, and_mask4,
        and_mask8, ha, hb, hc2]
      norm_num [Chip8.LD]
    · simp only [runState, Chip8.run_instr, shr12_eq, shr8_eq, and_mask4,
        and_mask8, hd, he, hf]
      norm_num [Chip8.LD]

/-- Witness for C9_timers: the invariant at `init`, the run-down of
`DT = 2, ST = 1` to zero in two ticks, and `LD DT, V0` at `x = 0`. -/
theorem C9_timers_witness :
    (Reachable Chip8.init ∧ (0 ≤ Chip8.init.DT ∧ 0 ≤ Chip8.init.ST)) ∧
    ((0 : Int) ≤ c9wit.DT ∧ (0 : Int) ≤ c9wit.ST ∧ c9wit.DT.toNat ≤ 2 ∧
      c9wit.ST.toNat ≤ 2 ∧
      (Chip8.tick^[2] c9wit).DT = 0 ∧ (Chip8.tick^[2] c9wit).ST = 0) ∧
    ((0 : Nat) < 16 ∧
      runState Chip8.init (0xF000 + 0 * 256 + 0x15) =
        some { Chip8.init with DT := (Chip8.init.V 0 : Int) }) := by
  refine ⟨⟨Reachable.base, C9_timers.1 Chip8.init Reachable.base⟩, ?_, ?_⟩
  · have h := C9_timers.2.2.1 c9wit 2 (by decide) (by decide) (by decide)
      (by decide)
    exact ⟨by decide, by decide, by decide, by decide, h.1, h.2⟩
  · exact ⟨by decide, (C9_timers.2.2.2.2 Chip8.init 0 (by decide)).1⟩
